import Mathlib

/-!
# Verification of the nano-banana-editor task/contract subsystem

Shallow embedding of the repository's core:

* `packages/shared/src/index.js` — contract validators (`ensureString`,
  `ensureWeight`, `validateReference`, `validateSource`,
  `validateGenerationContract`, `createStatusResponse`,
  `extractPromptIndexing`);
* `packages/engine/src/index.js` — workflow-graph builder and the
  multimodal request-parts assembly of `runDualTrackGeneration`;
* `packages/server/src/index.js` — the in-memory task store, `updateTask`,
  `runTask` and the `POST /api/tasks` handler, modelled as a labelled
  transition system over the server state.

JavaScript numbers are modelled as `Option ℚ` (with `none` standing for the
non-finite values `NaN`/`±Infinity`, which the validator code only ever
inspects through `Number.isFinite`); machine floating point itself is not
modelled, and `toFixed` rounding is idealised as exact rational rounding,
which is the behaviour the code relies on for the weights in `[0,1]`.
Timestamps (`new Date().toISOString()`) are passed in as explicit `now`
strings.
-/

/-- JSON-representable JavaScript values as the validators receive them
(`undefined` models a missing property). A `num none` is a non-finite
number (`NaN` or `±Infinity`). -/
inductive JSValue where
  | undefined
  | null
  | bool (b : Bool)
  | num (val : Option ℚ)
  | str (s : String)
  | arr (elems : List JSValue)
  | obj (fields : List (String × JSValue))
deriving Repr

/-- Property read `v[name]`: `undefined` on missing property or non-object. -/
def getField (v : JSValue) (name : String) : JSValue :=
  match v with
  | .obj fields =>
    match fields.lookup name with
    | some x => x
    | none => .undefined
  | _ => .undefined

/-- Embeds `isRecord` from shared/src/index.js: a non-null non-array object. -/
def isRecord (v : JSValue) : Bool :=
  match v with
  | .obj _ => true
  | _ => false

/-- The character class of JavaScript string trimming and of the regexp
class `\s`: ASCII whitespace, line terminators and the Unicode space
separators (ECMA-262 TrimString / CharacterClassEscape `s`). -/
def jsWhitespace (c : Char) : Bool :=
  let n := c.toNat
  n = 32 || n = 9 || n = 10 || n = 13 || n = 11 || n = 12 ||
  n = 0xa0 || n = 0x1680 || (0x2000 ≤ n && n ≤ 0x200a) ||
  n = 0x2028 || n = 0x2029 || n = 0x202f || n = 0x205f || n = 0x3000 ||
  n = 0xfeff

/-- Models `String.prototype.trim` on the underlying character list. -/
def jsTrimList (l : List Char) : List Char :=
  ((l.dropWhile jsWhitespace).reverse.dropWhile jsWhitespace).reverse

/-- Models `String.prototype.trim`. -/
def jsTrim (s : String) : String :=
  ⟨jsTrimList s.data⟩

/-- ASCII decimal digit test (`\d` in a JS regexp matches exactly 0-9). -/
def isDecDigit (c : Char) : Bool :=
  48 ≤ c.toNat && c.toNat ≤ 57

/-- Maximal munch of decimal digits; returns their values and the rest. -/
def takeDigits : List Char → (List ℕ × List Char)
  | [] => ([], [])
  | c :: rest =>
    if isDecDigit c then
      let (ds, r) := takeDigits rest
      ((c.toNat - 48) :: ds, r)
    else ([], c :: rest)

/-- Digit-list value in base 10. -/
def digitsToNat (ds : List ℕ) : ℕ :=
  ds.foldl (fun a d => a * 10 + d) 0

/-- Digit value in radix `r` (for the 0x/0o/0b integer literal forms). -/
def radixDigitVal (r : ℕ) (c : Char) : Option ℕ :=
  let n := c.toNat
  let v :=
    if 48 ≤ n && n ≤ 57 then some (n - 48)
    else if 97 ≤ n && n ≤ 102 then some (n - 87)
    else if 65 ≤ n && n ≤ 70 then some (n - 55)
    else none
  match v with
  | some d => if d < r then some d else none
  | none => none

/-- Radix integer literal: at least one digit, whole input consumed. -/
def parseRadixAll (r : ℕ) (cs : List Char) : Option ℚ :=
  let rec go (acc : ℕ) : List Char → Option ℕ
    | [] => some acc
    | c :: rest =>
      match radixDigitVal r c with
      | some d => go (acc * r + d) rest
      | none => none
  match cs with
  | [] => none
  | c :: rest =>
    match radixDigitVal r c with
    | some d => (go d rest).map (fun n => (n : ℚ))
    | none => none

/-- Optional exponent part (`e`/`E`, optional sign, digits), whole input
consumed; `some 0` when absent. -/
def parseExpOpt (cs : List Char) : Option ℤ :=
  match cs with
  | [] => some 0
  | c :: rest =>
    if c = 'e' || c = 'E' then
      match rest with
      | '+' :: r2 =>
        match takeDigits r2 with
        | ([], _) => none
        | (ds, []) => some (digitsToNat ds : ℤ)
        | (_, _ :: _) => none
      | '-' :: r2 =>
        match takeDigits r2 with
        | ([], _) => none
        | (ds, []) => some (-(digitsToNat ds : ℤ))
        | (_, _ :: _) => none
      | r2 =>
        match takeDigits r2 with
        | ([], _) => none
        | (ds, []) => some (digitsToNat ds : ℤ)
        | (_, _ :: _) => none
    else none

/-- Unsigned decimal literal `Digits ['.' Digits?] [Exp] | '.' Digits [Exp]`,
whole input consumed. -/
def parseDecimalTail (cs : List Char) : Option ℚ :=
  let (intDs, r1) := takeDigits cs
  match r1 with
  | '.' :: r2 =>
    let (fracDs, r3) := takeDigits r2
    if intDs = [] && fracDs = [] then none
    else
      match parseExpOpt r3 with
      | some e => some (((digitsToNat intDs : ℚ) + (digitsToNat fracDs : ℚ) / (10 : ℚ) ^ fracDs.length) * (10 : ℚ) ^ e)
      | none => none
  | _ =>
    if intDs = [] then none
    else
      match parseExpOpt r1 with
      | some e => some ((digitsToNat intDs : ℚ) * (10 : ℚ) ^ e)
      | none => none

/-- Unsigned numeric literal body. `Infinity` is a valid ECMA string numeric
literal but is non-finite, which this model conflates with `NaN` as `none`
(the code only ever asks `Number.isFinite` of the result). -/
def parseUnsignedNumeric (cs : List Char) : Option ℚ :=
  if cs = "Infinity".data then none
  else parseDecimalTail cs

/-- Signed decimal literal. -/
def parseSignedDec : List Char → Option ℚ
  | '+' :: rest => parseUnsignedNumeric rest
  | '-' :: rest => (parseUnsignedNumeric rest).map Neg.neg
  | cs => parseUnsignedNumeric cs

/-- A full ECMA StringNumericLiteral body after trimming (sign only for the
decimal form; `0x`/`0o`/`0b` radix forms are unsigned). -/
def parseNumericLiteral (cs : List Char) : Option ℚ :=
  match cs with
  | '0' :: c :: rest =>
    if c = 'x' || c = 'X' then parseRadixAll 16 rest
    else if c = 'o' || c = 'O' then parseRadixAll 8 rest
    else if c = 'b' || c = 'B' then parseRadixAll 2 rest
    else parseSignedDec ('0' :: c :: rest)
  | cs => parseSignedDec cs

/-- Models `Number(string)`: trim, empty means 0, otherwise the numeric literal;
`none` is NaN or an infinity. -/
def strToNumber (s : String) : Option ℚ :=
  let t := jsTrimList s.data
  if t = [] then some 0 else parseNumericLiteral t

/-- Models `Number(x)` for a single array element via `String(x)` inside
`Array.prototype.toString` (null/undefined stringify to the empty string,
which re-parses to 0; booleans and plain objects to non-numeric text). -/
def arrElemToNumber : List JSValue → Option ℚ
  | [] => some 0
  | [x] =>
    match x with
    | .null => some 0
    | .undefined => some 0
    | .num o => o
    | .str s => strToNumber s
    | .bool _ => none
    | .obj _ => none
    | .arr ys => arrElemToNumber ys
  | _ :: _ :: _ => none

/-- Models the `Number(value)` coercion over JSON-representable values. An array of two
or more elements joins with a comma, which can never re-parse as a number; a
plain object stringifies to `[object Object]`, likewise NaN. -/
def toNumber (v : JSValue) : Option ℚ :=
  match v with
  | .num o => o
  | .str s => strToNumber s
  | .bool b => some (if b then 1 else 0)
  | .null => some 0
  | .undefined => none
  | .arr l => arrElemToNumber l
  | .obj _ => none

/-- Models `Number(q.toFixed(4))` for the finite values the validator range-checks
first: round half away from zero at 4 decimal places (exact on ℚ; the
weights involved are in `[0,1]`). -/
def round4 (q : ℚ) : ℚ :=
  (⌊q * 10000 + 1 / 2⌋ : ℚ) / 10000

/-- Embeds `ContractValidationError` (shared/src/index.js); the structured
`details` payload is not needed by any claim and is omitted. -/
structure ContractValidationError where
  code : String
  message : String
deriving DecidableEq, Repr

instance {ε α : Type _} [DecidableEq ε] [DecidableEq α] : DecidableEq (Except ε α) := fun x y =>
  match x, y with
  | .error a, .error b =>
    if h : a = b then .isTrue (by rw [h]) else .isFalse (fun hc => h (by cases hc; rfl))
  | .ok a, .ok b =>
    if h : a = b then .isTrue (by rw [h]) else .isFalse (fun hc => h (by cases hc; rfl))
  | .error _, .ok _ => .isFalse (fun hc => by cases hc)
  | .ok _, .error _ => .isFalse (fun hc => by cases hc)

/-- Embeds `ensureString` (shared/src/index.js lines 35-53). -/
def ensureString (value : JSValue) (field : String) (allowEmpty : Bool) : Except ContractValidationError String :=
  match value with
  | .str s =>
    let trimmed := jsTrimList s.data
    if !allowEmpty && trimmed = [] then
      .error ⟨"EMPTY_STRING", field ++ " must not be empty"⟩
    else .ok ⟨trimmed⟩
  | _ => .error ⟨"INVALID_STRING", field ++ " must be a string"⟩

/-- Embeds `ensureWeight` (shared/src/index.js lines 55-72): coerce with
`Number()`, reject non-finite, range-check `[0,1]`, round to 4 decimals. -/
def ensureWeight (value : JSValue) (field : String) : Except ContractValidationError ℚ :=
  match toNumber value with
  | none => .error ⟨"INVALID_WEIGHT", field ++ " must be a valid number"⟩
  | some parsed =>
    if parsed < 0 ∨ parsed > 1 then
      .error ⟨"WEIGHT_OUT_OF_RANGE", field ++ " must be in range [0, 1]"⟩
    else .ok (round4 parsed)

/-- Embeds `FEATURE_TYPES` (shared/src/index.js). -/
def FEATURE_TYPES : List String :=
  ["FACE", "STYLE", "MATERIAL", "COMPONENT"]

/-- Embeds `TASK_STATUSES` (shared/src/index.js). -/
def TASK_STATUSES : List String :=
  ["QUEUED", "PROCESSING", "SUCCESS", "FAILED"]

/-- Models `String.prototype.toUpperCase`, restricted to the ASCII simple case
mapping (the enum comparisons in this codebase are over ASCII-only
constants). -/
def jsToUpperCase (s : String) : String :=
  s.map Char.toUpper

/-- Validated `reference` object. -/
structure RefSpec where
  imageRef : String
  weight : ℚ
deriving DecidableEq, Repr

/-- Validated `sources[i]` object. -/
structure SourceSpec where
  imageRef : String
  featureType : String
  weight : ℚ
deriving DecidableEq, Repr

/-- A validated Generation Contract. `model` records the optional `model`
property of the engine-side contract objects; `validateGenerationContract`
returns an object literal with no `model` property, i.e. `none`. -/
structure GenerationContract where
  taskId : String
  prompt : String
  negativePrompt : String
  reference : RefSpec
  sources : List SourceSpec
  model : Option String
deriving DecidableEq, Repr

/-- Embeds `validateReference` (shared/src/index.js lines 74-87); the object
literal evaluates `imageRef` before `weight`. -/
def validateReference (value : JSValue) : Except ContractValidationError RefSpec :=
  if isRecord value then
    match ensureString (getField value "imageRef") "reference.imageRef" false with
    | .error e => .error e
    | .ok imageRef =>
      match ensureWeight (getField value "weight") "reference.weight" with
      | .error e => .error e
      | .ok weight => .ok ⟨imageRef, weight⟩
  else .error ⟨"INVALID_REFERENCE", "reference must be an object"⟩

/-- Embeds `validateSource` (shared/src/index.js lines 89-112): record check, then
featureType (trimmed, upper-cased, enum-checked), then imageRef, then
weight. -/
def validateSource (value : JSValue) (index : ℕ) : Except ContractValidationError SourceSpec :=
  if isRecord value then
    match ensureString (getField value "featureType") ("sources[" ++ toString index ++ "].featureType") false with
    | .error e => .error e
    | .ok ft0 =>
      let featureType := jsToUpperCase ft0
      if featureType ∈ FEATURE_TYPES then
        match ensureString (getField value "imageRef") ("sources[" ++ toString index ++ "].imageRef") false with
        | .error e => .error e
        | .ok imageRef =>
          match ensureWeight (getField value "weight") ("sources[" ++ toString index ++ "].weight") with
          | .error e => .error e
          | .ok weight => .ok ⟨imageRef, featureType, weight⟩
      else
        .error ⟨"INVALID_FEATURE_TYPE",
          "sources[" ++ toString index ++ "].featureType must be one of " ++ String.intercalate ", " FEATURE_TYPES⟩
  else .error ⟨"INVALID_SOURCE", "sources[" ++ toString index ++ "] must be an object"⟩

/-- Embeds `input.sources.map(validateSource)` with its index argument: JS `map`
runs left to right and the first thrown error aborts the whole map. -/
def validateSourcesFrom (start : ℕ) : List JSValue → Except ContractValidationError (List SourceSpec)
  | [] => .ok []
  | v :: rest =>
    match validateSource v start with
    | .error e => .error e
    | .ok s =>
      match validateSourcesFrom (start + 1) rest with
      | .error e => .error e
      | .ok tail => .ok (s :: tail)

/-- The `negativePrompt` step of `validateGenerationContract`: absent means
`""`, otherwise a string (possibly empty after trimming). -/
def validateNegativePrompt (v : JSValue) : Except ContractValidationError String :=
  match v with
  | .undefined => .ok ""
  | v => ensureString v "negativePrompt" true

/-- The `sources` step of `validateGenerationContract`: a non-empty array,
each element validated in order. -/
def validateSourcesField (v : JSValue) : Except ContractValidationError (List SourceSpec) :=
  match v with
  | .arr [] => .error ⟨"INVALID_SOURCES", "sources must be a non-empty array"⟩
  | .arr elems => validateSourcesFrom 0 elems
  | _ => .error ⟨"INVALID_SOURCES", "sources must be a non-empty array"⟩

/-- Embeds `validateGenerationContract` (shared/src/index.js lines 114-146):
record check, then taskId → prompt → negativePrompt → reference → sources,
stopping at the first violation. The returned object has no `model`
property. -/
def validateGenerationContract (input : JSValue) : Except ContractValidationError GenerationContract :=
  if isRecord input then
    match ensureString (getField input "taskId") "taskId" false with
    | .error e => .error e
    | .ok taskId =>
      match ensureString (getField input "prompt") "prompt" false with
      | .error e => .error e
      | .ok prompt =>
        match validateNegativePrompt (getField input "negativePrompt") with
        | .error e => .error e
        | .ok negativePrompt =>
          match validateReference (getField input "reference") with
          | .error e => .error e
          | .ok reference =>
            match validateSourcesField (getField input "sources") with
            | .error e => .error e
            | .ok sources => .ok ⟨taskId, prompt, negativePrompt, reference, sources, none⟩
  else .error ⟨"INVALID_CONTRACT", "Generation Contract must be an object"⟩

/-- Normalisation applied by `createStatusResponse` to `outputUrl`,
`errorCode` and `message`: a string that trims non-empty is kept trimmed,
anything else becomes null. -/
def normTrimOpt (v : JSValue) : Option String :=
  match v with
  | .str s =>
    let t := jsTrimList s.data
    if t = [] then none else some ⟨t⟩
  | _ => none

/-- The `warnings` filter of `createStatusResponse`: keep exactly the
elements that are strings with non-blank content, unchanged. -/
def warningsOf (v : JSValue) : List String :=
  match v with
  | .arr xs =>
    xs.filterMap fun item =>
      match item with
      | .str s => if jsTrimList s.data = [] then none else some s
      | _ => none
  | _ => []

/-- A normalised Status Response. -/
structure StatusResponse where
  taskId : String
  status : String
  outputUrl : Option String
  errorCode : Option String
  message : Option String
  warnings : List String
  updatedAt : String
deriving DecidableEq, Repr

/-- Embeds `createStatusResponse` (shared/src/index.js lines 148-196); `now`
stands for `new Date().toISOString()`. -/
def createStatusResponse (now : String) (input : JSValue) : Except ContractValidationError StatusResponse :=
  if isRecord input then
    match ensureString (getField input "taskId") "taskId" false with
    | .error e => .error e
    | .ok taskId =>
      match ensureString (getField input "status") "status" false with
      | .error e => .error e
      | .ok status0 =>
        let status := jsToUpperCase status0
        if status ∈ TASK_STATUSES then
          .ok
            { taskId := taskId
              status := status
              outputUrl := normTrimOpt (getField input "outputUrl")
              errorCode := normTrimOpt (getField input "errorCode")
              message := normTrimOpt (getField input "message")
              warnings := warningsOf (getField input "warnings")
              updatedAt :=
                match getField input "updatedAt" with
                | .str s => if s = "" then now else s
                | _ => now }
        else
          .error ⟨"INVALID_STATUS_VALUE", "status must be one of " ++ String.intercalate ", " TASK_STATUSES⟩
  else .error ⟨"INVALID_STATUS", "Status Response must be an object"⟩

/-- Result of `extractPromptIndexing`. The JS function returns the two
dedup lists in first-occurrence order (`[...new Set(xs)]`). -/
structure PromptIndexing where
  usesReference : Bool
  sourceIndexes : List ℕ
  outOfRange : List ℕ
deriving DecidableEq, Repr

/-- ASCII-case-insensitive folding used by the `/i` regexp flag (without
the `u` flag, non-ASCII characters never canonicalise onto ASCII). -/
def ciChar (c : Char) : Char :=
  if 65 ≤ c.toNat ∧ c.toNat ≤ 90 then Char.ofNat (c.toNat + 32) else c

/-- Match `pat` case-insensitively as a prefix; returns the rest. -/
def matchCIAt : List Char → List Char → Option (List Char)
  | [], cs => some cs
  | _ :: _, [] => none
  | p :: ps, c :: cs => if ciChar c = ciChar p then matchCIAt ps cs else none

/-- Models `/pat/i.test(s)`: does `pat` occur case-insensitively anywhere? -/
def containsTokenCI (pat : List Char) : List Char → Bool
  | [] => (matchCIAt pat []).isSome
  | c :: cs => (matchCIAt pat (c :: cs)).isSome || containsTokenCI pat cs

/-- One attempt of the regexp `\[Source\s+(\d+)\]` (case-insensitive) at
the head of the input: literal `[Source`, one or more whitespace, one or
more digits, `]`. Returns the captured index value and the rest after the
match. -/
def matchSourceAt (cs : List Char) : Option (ℕ × List Char) :=
  match matchCIAt "[source".data cs with
  | none => none
  | some r1 =>
    match r1 with
    | c :: r2 =>
      if jsWhitespace c then
        let r3 := r2.dropWhile jsWhitespace
        match takeDigits r3 with
        | ([], _) => none
        | (ds, r4) =>
          match r4 with
          | ']' :: r5 => some (digitsToNat ds, r5)
          | _ => none
      else none
    | [] => none

/-- Global scan of `matchAll(/\[Source\s+(\d+)\]/gi)`: leftmost matches,
continuing after each match. The fuel argument is the remaining input
length plus one; every match consumes at least one character, so the fuel
never runs out for the initial call in `extractPromptIndexing`. -/
def scanSourceAux : ℕ → List Char → List ℕ
  | 0, _ => []
  | _ + 1, [] => []
  | fuel + 1, c :: cs =>
    match matchSourceAt (c :: cs) with
    | some (n, rest) => n :: scanSourceAux fuel rest
    | none => scanSourceAux fuel cs

/-- Models `[...new Set(l)]`: deduplicate keeping first-occurrence order. -/
def dedupAux (seen : List ℕ) : List ℕ → List ℕ
  | [] => []
  | x :: xs => if x ∈ seen then dedupAux seen xs else x :: dedupAux (x :: seen) xs

/-- Models `[...new Set(l)]`. -/
def dedupFirst (l : List ℕ) : List ℕ :=
  dedupAux [] l

/-- Embeds `extractPromptIndexing` (shared/src/index.js lines 198-211). The
out-of-range filter in the source reads
`!Number.isInteger(index) || index < 0 || index >= sourceCount`; a capture
of `\d+` is always a non-negative integer, so only the last disjunct can
hold. -/
def extractPromptIndexing (prompt : String) (sourceCount : ℕ) : PromptIndexing :=
  let p := jsTrimList prompt.data
  let idxs := scanSourceAux (p.length + 1) p
  { usesReference := containsTokenCI "[reference]".data p
    sourceIndexes := dedupFirst idxs
    outOfRange := dedupFirst (idxs.filter fun i => sourceCount ≤ i) }

/-- Projection keeping only the error of a validation step. -/
def errOpt {α : Type _} (r : Except ContractValidationError α) : Option ContractValidationError :=
  match r with
  | .error e => some e
  | .ok _ => none

/-- First present element, in order. -/
def firstSome : List (Option ContractValidationError) → Option ContractValidationError
  | [] => none
  | some e :: _ => some e
  | none :: rest => firstSome rest

/-- The five field checks of `validateGenerationContract` run independently
on the raw input, in the spec's fixed field order
taskId → prompt → negativePrompt → reference → sources. -/
def contractFieldViolations (input : JSValue) : List (Option ContractValidationError) :=
  [ errOpt (ensureString (getField input "taskId") "taskId" false)
  , errOpt (ensureString (getField input "prompt") "prompt" false)
  , errOpt (validateNegativePrompt (getField input "negativePrompt"))
  , errOpt (validateReference (getField input "reference"))
  , errOpt (validateSourcesField (getField input "sources")) ]

/-- The first violation in the fixed field order. -/
def firstContractViolation (input : JSValue) : Option ContractValidationError :=
  firstSome (contractFieldViolations input)

/-- JS object literal for a validated reference, as returned by
`validateReference`. -/
def referenceToJS (r : RefSpec) : JSValue :=
  .obj [("imageRef", .str r.imageRef), ("weight", .num (some r.weight))]

/-- JS object literal for a validated source, as returned by
`validateSource`. -/
def sourceToJS (s : SourceSpec) : JSValue :=
  .obj [("imageRef", .str s.imageRef), ("featureType", .str s.featureType), ("weight", .num (some s.weight))]

/-- The JS object a validated contract denotes (the object literal returned
by `validateGenerationContract`, which carries no `model` property; the
optional property is included here for engine-side contract objects that do
carry one). -/
def contractToJS (c : GenerationContract) : JSValue :=
  .obj
    ([("taskId", .str c.taskId), ("prompt", .str c.prompt), ("negativePrompt", .str c.negativePrompt),
      ("reference", referenceToJS c.reference),
      ("sources", .arr (c.sources.map sourceToJS))] ++
      (match c.model with
       | some m => [("model", JSValue.str m)]
       | none => []))

/-- Models `x || dflt` for an optional string property (`undefined` and the
empty string are falsy). -/
def jsOrDefault (o : Option String) (dflt : String) : String :=
  match o with
  | some s => if s = "" then dflt else s
  | none => dflt

/-- Entry of the TRACK_B node's `sources` list. -/
structure WGSource where
  id : String
  featureType : String
  weight : ℚ
deriving DecidableEq, Repr

/-- A workflow-graph node (engine/src/index.js `buildWorkflowGraph`). The
JS node objects are heterogeneous; a property a node does not carry is
`none`. -/
structure WGNode where
  id : String
  role : String
  engineNode : String
  weight : Option ℚ := none
  sources : Option (List WGSource) := none
  prompt : Option String := none
  model : Option String := none
deriving DecidableEq, Repr

/-- The workflow graph (engine/src/index.js `buildWorkflowGraph`). -/
structure WorkflowGraph where
  name : String
  version : String
  model : String
  promptIndexing : PromptIndexing
  nodes : List WGNode
deriving DecidableEq, Repr

/-- Models `Array.prototype.map` with its index argument. -/
def mapIdxFrom {α β : Type _} (k : ℕ) (f : ℕ → α → β) : List α → List β
  | [] => []
  | x :: xs => f k x :: mapIdxFrom (k + 1) f xs

/-- Embeds `buildWorkflowGraph` (engine/src/index.js lines 117-149).
`defaultModel` is the configured `DEFAULT_MODEL`
(`process.env.GEMINI_MODEL || "gemini-3-pro-image-preview"`). -/
def buildWorkflowGraph (defaultModel : String) (c : GenerationContract) : WorkflowGraph :=
  { name := "MEIE-DualTrack-Gemini"
    version := "0.2.0"
    model := jsOrDefault c.model defaultModel
    promptIndexing := extractPromptIndexing c.prompt c.sources.length
    nodes :=
      [ { id := "reference", role := "REFERENCE", engineNode := "composition_constraint",
          weight := some c.reference.weight }
      , { id := "feature-track", role := "TRACK_B", engineNode := "multi_source_feature_fusion",
          sources := some (mapIdxFrom 0 (fun i s => ⟨"source-" ++ toString i, s.featureType, s.weight⟩) c.sources) }
      , { id := "gemini-generate", role := "MERGE", engineNode := "generateContent",
          prompt := some c.prompt } ] }

/-- Embeds `const targetModel = contract.model || DEFAULT_MODEL`
(engine/src/index.js line 157). -/
def resolveTargetModel (defaultModel : String) (c : GenerationContract) : String :=
  jsOrDefault c.model defaultModel

/-- The workflow graph actually produced inside `runDualTrackGeneration`
(engine/src/index.js lines 157-161): `buildWorkflowGraph` applied to
`{...contract, model: targetModel}`. -/
def graphForRun (defaultModel : String) (c : GenerationContract) : WorkflowGraph :=
  buildWorkflowGraph defaultModel { c with model := some (resolveTargetModel defaultModel c) }

/-- Models `Number.prototype.toFixed(2)` for the non-negative weights this
codebase prints (all validated weights lie in `[0,1]`). -/
def qToFixed2 (q : ℚ) : String :=
  let m := (⌊q * 100 + 1 / 2⌋).toNat
  toString (m / 100) ++ "." ++ (if m % 100 < 10 then "0" else "") ++ toString (m % 100)

/-- Embeds the `userPrompt` assembly of `runDualTrackGeneration`
(engine/src/index.js lines 188-200); `.filter(Boolean)` drops every empty
string, including the literal `""` separator element. -/
def userPromptText (c : GenerationContract) : String :=
  String.intercalate "\n"
    ((["Task ID: " ++ c.taskId,
       "Reference weight: " ++ qToFixed2 c.reference.weight] ++
      mapIdxFrom 0
        (fun i s => "Source " ++ toString i ++ " -> featureType=" ++ s.featureType ++ ", weight=" ++ qToFixed2 s.weight)
        c.sources ++
      ["", "User prompt: " ++ c.prompt,
       if c.negativePrompt = "" then "" else "Negative prompt: " ++ c.negativePrompt]).filter
      (fun l => l ≠ ""))

/-- The text of the first user part (engine/src/index.js lines 207-212). -/
def introText (c : GenerationContract) : String :=
  String.intercalate "\n"
    ["Reference image below is composition anchor.",
     "Apply source image features with weighted fusion.",
     "",
     userPromptText c]

/-- A resolved inline image (`{mimeType, data}` as produced by
`imageRefToInlineData`). -/
structure InlineImage where
  mimeType : String
  data : String
deriving DecidableEq, Repr

/-- One element of the `parts` array of the user turn. -/
inductive GPart where
  | text (t : String)
  | inlineData (d : InlineImage)
deriving DecidableEq, Repr

/-- Embeds the `contents[0].parts` assembly of `runDualTrackGeneration`
(engine/src/index.js lines 202-225): the intro text, the reference inline
image, then one `Source <i> image` text marker per source, then every
source inline image. `refD` and `srcDs` are the already-resolved inline
images of the reference and of the sources in contract order. -/
def requestContents (c : GenerationContract) (refD : InlineImage) (srcDs : List InlineImage) : List GPart :=
  [GPart.text (introText c), GPart.inlineData refD] ++
    mapIdxFrom 0 (fun i _ => GPart.text ("Source " ++ toString i ++ " image")) srcDs ++
    srcDs.map GPart.inlineData

/-- Claim C4 as stated: every attached source image is immediately preceded
by the short textual marker naming that source's index. -/
def SourceImagesInterleaved (parts : List GPart) (srcDs : List InlineImage) : Prop :=
  ∀ i (hi : i < srcDs.length), ∃ k, 0 < k ∧
    parts.get? k = some (GPart.inlineData (srcDs.get ⟨i, hi⟩)) ∧
    parts.get? (k - 1) = some (GPart.text ("Source " ++ toString i ++ " image"))

/-- The `model` property of the raw POST body, when supplied as a string. -/
def suppliedModel (input : JSValue) : Option String :=
  match getField input "model" with
  | .str s => some s
  | _ => none

/-- Claim C5 as stated: for every contract accepted by the system, the run's
workflow graph has exactly the three roles, and its MERGE node carries the
resolved prompt and the resolved model (the contract's explicitly supplied
model if one was supplied, the configured default otherwise). -/
def MergeNodeCarriesModel (defaultModel : String) : Prop :=
  ∀ input c, validateGenerationContract input = .ok c →
    (graphForRun defaultModel c).nodes.map WGNode.role = ["REFERENCE", "TRACK_B", "MERGE"] ∧
    ∃ node ∈ (graphForRun defaultModel c).nodes, node.role = "MERGE" ∧
      node.prompt = some c.prompt ∧
      node.model = some ((suppliedModel input).getD defaultModel)

/-- The `progress` payload reported through `onStage`. -/
structure ProgressInfo where
  stage : String
  progress : ℚ
deriving DecidableEq, Repr

/-- A task record of the in-memory `tasks` map (server/src/index.js
`createTaskRecord` plus the fields later patched in by `updateTask`). The
`inc` field is model-only bookkeeping: a globally fresh incarnation number
assigned at creation, used to tell apart successive records stored under
the same `taskId` after eviction and re-creation; the JS record has no such
field and no step's behaviour depends on it. -/
structure TaskRec where
  taskId : String
  contract : GenerationContract
  status : String
  outputUrl : Option String
  errorCode : Option String
  message : Option String
  warnings : List String
  workflowGraph : Option WorkflowGraph
  progress : Option ProgressInfo
  updatedAt : String
  inc : ℕ
deriving DecidableEq, Repr

/-- Phase of one `runTask` invocation: not yet entered, awaiting the
executor, or returned (normally or through its catch block). -/
inductive RunPhase where
  | pending
  | running
  | done
deriving DecidableEq, Repr

/-- One `runTask(taskId)` invocation. `forInc` is model-only bookkeeping:
the incarnation of the record that existed when the run was scheduled (the
closure only captures `taskId`, which is exactly why a stale run can touch
a re-created record). -/
structure RunState where
  taskId : String
  forInc : ℕ
  phase : RunPhase
deriving DecidableEq, Repr

/-- Server state: the `tasks` map (insertion-ordered association list with
unique keys, as a JS `Map`), the set of spawned `runTask` invocations, a
fresh-incarnation counter, and the log of `broadcastTaskEvent` calls made
by `updateTask` (taskId and the status broadcast), which is what SSE
subscribers of a task would observe. -/
structure SrvState where
  tasks : List (String × TaskRec)
  runs : List RunState
  nextInc : ℕ
  log : List (String × String)
deriving DecidableEq, Repr

/-- The empty server at process start. -/
def initState : SrvState :=
  { tasks := [], runs := [], nextInc := 0, log := [] }

/-- Models `tasks.get(id)`. -/
def lookupTask : List (String × TaskRec) → String → Option TaskRec
  | [], _ => none
  | (k, v) :: rest, id => if k = id then some v else lookupTask rest id

/-- Models `tasks.set(id, rec)` for a key already present (the only way
`updateTask` uses it): replace in place, preserving insertion order. -/
def setTask : List (String × TaskRec) → String → TaskRec → List (String × TaskRec)
  | [], _, _ => []
  | (k, v) :: rest, id, rec => if k = id then (k, rec) :: rest else (k, v) :: setTask rest id rec

/-- Models `tasks.delete(id)`. -/
def removeTask : List (String × TaskRec) → String → List (String × TaskRec)
  | [], _ => []
  | (k, v) :: rest, id => if k = id then removeTask rest id else (k, v) :: removeTask rest id

/-- Embeds `createTaskRecord` (server/src/index.js lines 270-283); `inc` is
the model-only incarnation stamp. -/
def createTaskRecord (c : GenerationContract) (now : String) (inc : ℕ) : TaskRec :=
  { taskId := c.taskId
    contract := c
    status := "QUEUED"
    outputUrl := none
    errorCode := none
    message := none
    warnings := []
    workflowGraph := none
    progress := none
    updatedAt := now
    inc := inc }

/-- Outcome of the `POST /api/tasks` branch of `requestHandler`. -/
inductive PostOutcome where
  | accepted (record : TaskRec)
  | httpError (statusCode : ℕ) (code : String) (message : String)
  | contractError (e : ContractValidationError)
deriving DecidableEq, Repr

/-- Embeds the `POST /api/tasks` branch of `requestHandler`
(server/src/index.js lines 310-332): validate the body, reject a tracked
duplicate `taskId` with a 409 `TASK_EXISTS` HttpError before any mutation,
otherwise insert a QUEUED record and schedule its `runTask` invocation
(which runs as a separate asynchronous step). The eviction `setTimeout` is
modelled by the separate `evict` transition. No branch of this handler
calls `updateTask`, so no broadcast is logged here. -/
def postTask (s : SrvState) (body : JSValue) (now : String) : SrvState × PostOutcome :=
  match validateGenerationContract body with
  | .error e => (s, .contractError e)
  | .ok c =>
    if (lookupTask s.tasks c.taskId).isSome then
      (s, .httpError 409 "TASK_EXISTS" ("taskId " ++ c.taskId ++ " already exists"))
    else
      ({ tasks := s.tasks ++ [(c.taskId, createTaskRecord c now s.nextInc)]
         runs := s.runs ++ [⟨c.taskId, s.nextInc, RunPhase.pending⟩]
         nextInc := s.nextInc + 1
         log := s.log }, .accepted (createTaskRecord c now s.nextInc))

/-- State component of `postTask`. -/
def postApply (s : SrvState) (body : JSValue) (now : String) : SrvState :=
  (postTask s body now).1

/-- Embeds the entry of `runTask` (server/src/index.js lines 173-188): if
the task has vanished the invocation returns at once; otherwise
`updateTask` sets PROCESSING, clears `errorCode`/`message`/`outputUrl`,
resets `progress`, stamps `updatedAt` and broadcasts. -/
def startApply (s : SrvState) (i : ℕ) (now : String) : SrvState :=
  match s.runs.get? i with
  | none => s
  | some r =>
    if r.phase = RunPhase.pending then
      match lookupTask s.tasks r.taskId with
      | none => { s with runs := s.runs.set i { r with phase := RunPhase.done } }
      | some rec =>
        { s with
          runs := s.runs.set i { r with phase := RunPhase.running }
          tasks := setTask s.tasks r.taskId
            { rec with
              status := "PROCESSING", errorCode := none, message := none, outputUrl := none,
              progress := some ⟨"QUEUED", 0⟩, updatedAt := now }
          log := s.log ++ [(r.taskId, "PROCESSING")] }
    else s

/-- Embeds an `onStage` callback during the executor run (server/src/index.js
lines 191-195): `updateTask` patches `progress` only — the status field is
untouched — and is a no-op if the task has been evicted. -/
def progressApply (s : SrvState) (i : ℕ) (st : ProgressInfo) (now : String) : SrvState :=
  match s.runs.get? i with
  | none => s
  | some r =>
    if r.phase = RunPhase.running then
      match lookupTask s.tasks r.taskId with
      | none => s
      | some rec =>
        { s with
          tasks := setTask s.tasks r.taskId { rec with progress := some st, updatedAt := now }
          log := s.log ++ [(r.taskId, rec.status)] }
    else s

/-- Result payload of a successfully resolved executor run. -/
structure RunSuccess where
  outputExtension : String
  warnings : List String
  workflowGraph : WorkflowGraph
deriving DecidableEq, Repr

/-- Serialized error recorded for a rejected executor run. -/
structure RunFailure where
  code : String
  message : String
deriving DecidableEq, Repr

/-- Embeds the success continuation of `runTask` (server/src/index.js lines
197-212): the run returns and `updateTask` records SUCCESS with the output
URL `/outputs/<taskId>.<ext>`, warnings, workflow graph and final progress.
The `tasks.get` inside `updateTask` is keyed by the captured `taskId`, so
after eviction it is a no-op, and after eviction plus re-creation it
patches the re-created record. -/
def finishOkApply (s : SrvState) (i : ℕ) (res : RunSuccess) (now : String) : SrvState :=
  match s.runs.get? i with
  | none => s
  | some r =>
    if r.phase = RunPhase.running then
      match lookupTask s.tasks r.taskId with
      | none => { s with runs := s.runs.set i { r with phase := RunPhase.done } }
      | some rec =>
        { s with
          runs := s.runs.set i { r with phase := RunPhase.done }
          tasks := setTask s.tasks r.taskId
            { rec with
              status := "SUCCESS"
              outputUrl := some ("/outputs/" ++ r.taskId ++ "." ++ res.outputExtension)
              errorCode := none
              message := if res.warnings = [] then none else some "completed_with_warnings"
              warnings := res.warnings
              workflowGraph := some res.workflowGraph
              progress := some ⟨"DONE", 1⟩
              updatedAt := now }
          log := s.log ++ [(r.taskId, "SUCCESS")] }
    else s

/-- Embeds the catch block of `runTask` (server/src/index.js lines 213-221):
the run rejects and `updateTask` records FAILED with the serialized error,
clearing `outputUrl` (warnings, graph and progress are left as they were). -/
def finishErrApply (s : SrvState) (i : ℕ) (err : RunFailure) (now : String) : SrvState :=
  match s.runs.get? i with
  | none => s
  | some r =>
    if r.phase = RunPhase.running then
      match lookupTask s.tasks r.taskId with
      | none => { s with runs := s.runs.set i { r with phase := RunPhase.done } }
      | some rec =>
        { s with
          runs := s.runs.set i { r with phase := RunPhase.done }
          tasks := setTask s.tasks r.taskId
            { rec with
              status := "FAILED"
              outputUrl := none
              errorCode := some err.code
              message := some err.message
              updatedAt := now }
          log := s.log ++ [(r.taskId, "FAILED")] }
    else s

/-- Embeds the retention-window eviction (server/src/index.js lines
321-323): one hour after a creation, `tasks.delete(taskId)` fires. The
timer neither cancels nor waits for the in-flight executor run (the
provider call has no timeout), so in the interleaving semantics the
eviction can fire while the task's run is still pending or running. -/
def evictApply (s : SrvState) (id : String) : SrvState :=
  { s with tasks := removeTask s.tasks id }

/-- One interleaving step of the single-threaded event loop: an HTTP POST,
the synchronous prefix of a scheduled `runTask`, an `onStage` progress
callback, a run resuming after its executor settled, or an eviction timer
firing. -/
inductive SrvStep : SrvState → SrvState → Prop where
  | post (s : SrvState) (body : JSValue) (now : String) : SrvStep s (postApply s body now)
  | runStart (s : SrvState) (i : ℕ) (now : String) : SrvStep s (startApply s i now)
  | runProgress (s : SrvState) (i : ℕ) (st : ProgressInfo) (now : String) :
      SrvStep s (progressApply s i st now)
  | runFinishOk (s : SrvState) (i : ℕ) (res : RunSuccess) (now : String) :
      SrvStep s (finishOkApply s i res now)
  | runFinishErr (s : SrvState) (i : ℕ) (err : RunFailure) (now : String) :
      SrvStep s (finishErrApply s i err now)
  | evict (s : SrvState) (id : String) : SrvStep s (evictApply s id)

/-- States the server can reach from process start. -/
def ReachableStep (s : SrvState) : Prop :=
  Relation.ReflTransGen SrvStep initState s

/-- The legal status transitions of the claimed forward-only state machine
(staying put is a non-status mutation such as a progress patch). -/
def allowedStatusStep (a b : String) : Prop :=
  a = b ∨ (a = "QUEUED" ∧ b = "PROCESSING") ∨
    (a = "PROCESSING" ∧ (b = "SUCCESS" ∨ b = "FAILED"))

/-- Across one step, the status of any task record that persists (same
incarnation stored under the same taskId) moves only along the forward
path. -/
def StatusMono (s s' : SrvState) : Prop :=
  ∀ id rec rec', lookupTask s.tasks id = some rec → lookupTask s'.tasks id = some rec' →
    rec.inc = rec'.inc → allowedStatusStep rec.status rec'.status

/-- Claim C1 as stated: on every reachable step of the server, every task
record's status follows the forward-only path — it never regresses, never
skips PROCESSING, and never changes once terminal. -/
def ClaimC1 : Prop :=
  ∀ s s', ReachableStep s → SrvStep s s' → StatusMono s s'

/-- The steps of `SrvStep` restricted by the amendment's proviso: a POST
may only (re-)create a taskId when no earlier run for that taskId is still
in flight. All other steps are unrestricted. -/
inductive SrvSafeStep : SrvState → SrvState → Prop where
  | post (s : SrvState) (body : JSValue) (now : String)
      (h : ∀ c, validateGenerationContract body = .ok c →
        lookupTask s.tasks c.taskId = none →
        ∀ r ∈ s.runs, r.taskId = c.taskId → r.phase = RunPhase.done) :
      SrvSafeStep s (postApply s body now)
  | runStart (s : SrvState) (i : ℕ) (now : String) : SrvSafeStep s (startApply s i now)
  | runProgress (s : SrvState) (i : ℕ) (st : ProgressInfo) (now : String) :
      SrvSafeStep s (progressApply s i st now)
  | runFinishOk (s : SrvState) (i : ℕ) (res : RunSuccess) (now : String) :
      SrvSafeStep s (finishOkApply s i res now)
  | runFinishErr (s : SrvState) (i : ℕ) (err : RunFailure) (now : String) :
      SrvSafeStep s (finishErrApply s i err now)
  | evict (s : SrvState) (id : String) : SrvSafeStep s (evictApply s id)

/-- States reachable using only proviso-respecting steps. -/
def ReachableSafe (s : SrvState) : Prop :=
  Relation.ReflTransGen SrvSafeStep initState s

/-- Inductive invariant of the proviso-respecting system: forInc stamps are
fresh and pairwise distinct, every non-done run agrees with the current
record stored under its taskId, and a run's phase determines that record's
status while the run has not finished. -/
structure SrvInv (s : SrvState) : Prop where
  runBound : ∀ r ∈ s.runs, r.forInc < s.nextInc
  forIncNodup : (s.runs.map RunState.forInc).Nodup
  align : ∀ r ∈ s.runs, r.phase ≠ RunPhase.done →
    ∀ rec, lookupTask s.tasks r.taskId = some rec → rec.inc = r.forInc
  phaseStatus : ∀ r ∈ s.runs, ∀ rec, lookupTask s.tasks r.taskId = some rec →
    rec.inc = r.forInc →
    (r.phase = RunPhase.pending → rec.status = "QUEUED") ∧
    (r.phase = RunPhase.running → rec.status = "PROCESSING")

/-- Demo POST body: a valid Generation Contract request (the shape sent by
the frontend, feature type in lower case, weights as JSON numbers). -/
def demoBody : JSValue :=
  .obj
    [("taskId", .str "t1"),
     ("prompt", .str "Use [Reference] with [Source 0]"),
     ("negativePrompt", .str "blurry"),
     ("reference", .obj [("imageRef", .str "data:image/png;base64,RRRR"), ("weight", .num (some (9/10)))]),
     ("sources", .arr
       [.obj [("imageRef", .str "data:image/png;base64,AAAA"), ("featureType", .str "style"), ("weight", .num (some (3/4)))],
        .obj [("imageRef", .str "data:image/png;base64,BBBB"), ("featureType", .str "COMPONENT"), ("weight", .num (some (13/20)))]])]

/-- The contract `demoBody` validates to. -/
def demoContract : GenerationContract :=
  { taskId := "t1"
    prompt := "Use [Reference] with [Source 0]"
    negativePrompt := "blurry"
    reference := { imageRef := "data:image/png;base64,RRRR", weight := 9/10 }
    sources :=
      [ { imageRef := "data:image/png;base64,AAAA", featureType := "STYLE", weight := 3/4 }
      , { imageRef := "data:image/png;base64,BBBB", featureType := "COMPONENT", weight := 13/20 } ]
    model := none }

/-- Demo POST body that additionally supplies an explicit `model`. -/
def demoBodyWithModel : JSValue :=
  .obj
    [("taskId", .str "t1"),
     ("prompt", .str "Use [Reference] with [Source 0]"),
     ("negativePrompt", .str "blurry"),
     ("model", .str "custom-model"),
     ("reference", .obj [("imageRef", .str "data:image/png;base64,RRRR"), ("weight", .num (some (9/10)))]),
     ("sources", .arr
       [.obj [("imageRef", .str "data:image/png;base64,AAAA"), ("featureType", .str "style"), ("weight", .num (some (3/4)))],
        .obj [("imageRef", .str "data:image/png;base64,BBBB"), ("featureType", .str "COMPONENT"), ("weight", .num (some (13/20)))]])]

/-- The default model identifier when `GEMINI_MODEL` is unset. -/
def demoDefaultModel : String :=
  "gemini-3-pro-image-preview"

/-- Resolved inline image of the demo reference. -/
def demoRefImage : InlineImage :=
  { mimeType := "image/png", data := "RRRR" }

/-- Resolved inline image of demo source 0. -/
def demoSrcImage0 : InlineImage :=
  { mimeType := "image/png", data := "AAAA" }

/-- Resolved inline image of demo source 1. -/
def demoSrcImage1 : InlineImage :=
  { mimeType := "image/png", data := "BBBB" }

/-- Executor success payload of the demo run (one PNG part, no warnings). -/
def demoRunSuccess : RunSuccess :=
  { outputExtension := "png", warnings := [], workflowGraph := graphForRun demoDefaultModel demoContract }

/-- Serialized provider error of a rejected demo run. -/
def demoRunFailure : RunFailure :=
  { code := "GEMINI_API_ERROR", message := "Gemini API request failed with status 500." }

/-- Stale-run trace, state 1: `POST /api/tasks` creates task t1 (QUEUED). -/
def cexS1 : SrvState := postApply initState demoBody "T1"

/-- State 2: t1's run starts (PROCESSING); the executor then hangs on the
provider call, which has no timeout. -/
def cexS2 : SrvState := startApply cexS1 0 "T2"

/-- State 3: one hour later the retention timer evicts t1; the first run is
still in flight. -/
def cexS3 : SrvState := evictApply cexS2 "t1"

/-- State 4: a new `POST /api/tasks` re-creates taskId t1 (fresh record,
QUEUED); `tasks.has` no longer sees the evicted record. -/
def cexS4 : SrvState := postApply cexS3 demoBody "T4"

/-- State 5: the second run starts (PROCESSING). -/
def cexS5 : SrvState := startApply cexS4 1 "T5"

/-- State 6: the second run resolves; the re-created t1 is SUCCESS. -/
def cexS6 : SrvState := finishOkApply cexS5 1 demoRunSuccess "T6"

/-- State 7: the stale first run finally rejects; its catch block calls
`updateTask("t1", {status: "FAILED", ...})`, which now hits the re-created
record and overwrites its terminal SUCCESS with FAILED. -/
def cexS7 : SrvState := finishErrApply cexS6 0 demoRunFailure "T7"

/-- If a prefix of a dropWhile-fixed list starts with a character, that
character fails the predicate, so the prefix is dropWhile-fixed too. -/
theorem dropWhile_of_isPrefix_of_fixed {p : Char → Bool} (m : List Char) {u : List Char}
    (hpre : u <+: m) (hfix : List.dropWhile p m = m) : List.dropWhile p u = u := by
  cases u with
  | nil => rfl
  | cons a as =>
    obtain ⟨t, ht⟩ := hpre
    have hm : m = a :: (as ++ t) := by rw [← ht]; simp
    have hpa : p a = false := by
      by_contra hp
      have hp' : p a = true := by revert hp; cases p a <;> simp
      rw [hm, List.dropWhile_cons_of_pos hp'] at hfix
      have hlen := congrArg List.length hfix
      have hle : (List.dropWhile p (as ++ t)).length ≤ (as ++ t).length :=
        List.Sublist.length_le (List.dropWhile_sublist p)
      simp only [List.length_cons] at hlen
      omega
    exact List.dropWhile_cons_of_neg (by simp [hpa])

/-- Connects the trim model to Mathlib's `rdropWhile`. -/
theorem jsTrimList_eq_rdrop (l : List Char) :
    jsTrimList l = List.rdropWhile jsWhitespace (List.dropWhile jsWhitespace l) := rfl

/-- A trimmed list has no leading whitespace. -/
theorem dropWhile_jsTrimList (l : List Char) :
    List.dropWhile jsWhitespace (jsTrimList l) = jsTrimList l := by
  refine dropWhile_of_isPrefix_of_fixed (List.dropWhile jsWhitespace l) ?_ ?_
  · rw [jsTrimList_eq_rdrop]
    exact List.rdropWhile_prefix jsWhitespace (List.dropWhile jsWhitespace l)
  · exact List.dropWhile_idempotent jsWhitespace l

/-- JS trimming is idempotent. -/
theorem jsTrimList_idem (l : List Char) : jsTrimList (jsTrimList l) = jsTrimList l := by
  show ((List.dropWhile jsWhitespace (jsTrimList l)).reverse.dropWhile jsWhitespace).reverse = jsTrimList l
  rw [dropWhile_jsTrimList]
  have h2 : (jsTrimList l).reverse = List.dropWhile jsWhitespace ((List.dropWhile jsWhitespace l).reverse) := by
    simp [jsTrimList]
  rw [h2, List.dropWhile_idempotent, ← h2]
  simp [jsTrimList]

/-- What `ensureString` guarantees about its result: trimmed in place, and
non-empty unless emptiness was allowed. -/
theorem ensureString_ok {v : JSValue} {f : String} {ae : Bool} {t : String}
    (h : ensureString v f ae = .ok t) :
    jsTrimList t.data = t.data ∧ (ae = false → t.data ≠ []) := by
  cases v with
  | str s =>
    simp only [ensureString] at h
    by_cases hc : (!ae && jsTrimList s.data = []) = true
    · rw [if_pos hc] at h; cases h
    · rw [if_neg hc] at h
      cases h
      refine ⟨jsTrimList_idem s.data, ?_⟩
      intro hae hnil
      apply hc
      simp [hae]
      exact hnil
  | undefined => cases h
  | null => cases h
  | bool b => cases h
  | num o => cases h
  | arr l => cases h
  | obj l => cases h

/-- Re-validating a string `ensureString` already normalised succeeds and
returns it unchanged. -/
theorem ensureString_fixed {t : String} (f : String) (ae : Bool)
    (hfix : jsTrimList t.data = t.data) (hne : ae = true ∨ t.data ≠ []) :
    ensureString (.str t) f ae = .ok t := by
  simp only [ensureString, hfix]
  have hcond : (!ae && decide (t.data = [])) = false := by
    rcases hne with hae | hne
    · simp [hae]
    · simp [hne]
  simp [hcond]

/-- Rounding keeps `[0,1]` stable. -/
theorem round4_mem_unit {q : ℚ} (h0 : 0 ≤ q) (h1 : q ≤ 1) :
    0 ≤ round4 q ∧ round4 q ≤ 1 := by
  unfold round4
  constructor
  · apply div_nonneg _ (by norm_num)
    have hq : (0:ℚ) ≤ q * 10000 + 1/2 := by nlinarith
    exact_mod_cast Int.floor_nonneg.mpr hq
  · rw [div_le_one (by norm_num)]
    have hlt : q * 10000 + 1/2 < ((10001 : ℤ) : ℚ) := by push_cast; nlinarith
    have hfl := Int.floor_lt.mpr hlt
    have hle : ⌊q * 10000 + 1/2⌋ ≤ 10000 := by omega
    exact_mod_cast hle

/-- Rounding to 4 decimals is idempotent. -/
theorem round4_idem (q : ℚ) : round4 (round4 q) = round4 q := by
  unfold round4
  rw [div_mul_cancel₀ _ (by norm_num : (10000:ℚ) ≠ 0)]
  norm_num [Int.floor_int_add]

/-- What `ensureWeight` guarantees about its result: in `[0,1]` and a fixed
point of the rounding. -/
theorem ensureWeight_ok {v : JSValue} {f : String} {w : ℚ}
    (h : ensureWeight v f = .ok w) : 0 ≤ w ∧ w ≤ 1 ∧ round4 w = w := by
  unfold ensureWeight at h
  split at h
  · cases h
  · rename_i parsed hv
    split at h
    · cases h
    · cases h
      rename_i hc
      push_neg at hc
      obtain ⟨hmem0, hmem1⟩ := round4_mem_unit hc.1 hc.2
      exact ⟨hmem0, hmem1, round4_idem parsed⟩

/-- A weight `ensureWeight` already rounded re-validates to itself. -/
theorem ensureWeight_num_fixed {w : ℚ} (f : String) (h0 : 0 ≤ w) (h1 : w ≤ 1)
    (hr : round4 w = w) : ensureWeight (JSValue.num (some w)) f = .ok w := by
  unfold ensureWeight
  have ht : toNumber (JSValue.num (some w)) = some w := rfl
  rw [ht]
  dsimp only
  rw [if_neg (by push_neg; exact ⟨h0, h1⟩), hr]

/-- Membership of the first-occurrence dedup with a seen accumulator. -/
theorem mem_dedupAux (a : ℕ) (l : List ℕ) : ∀ seen, a ∈ dedupAux seen l ↔ a ∈ l ∧ a ∉ seen := by
  induction l with
  | nil => intro seen; simp [dedupAux]
  | cons x xs ih =>
    intro seen
    by_cases hx : x ∈ seen
    · simp only [dedupAux, if_pos hx, ih, List.mem_cons]
      constructor
      · rintro ⟨h1, h2⟩; exact ⟨Or.inr h1, h2⟩
      · rintro ⟨h1 | h1, h2⟩
        · exact absurd hx (h1 ▸ h2)
        · exact ⟨h1, h2⟩
    · simp only [dedupAux, if_neg hx, List.mem_cons, ih]
      constructor
      · rintro (rfl | ⟨h1, h2⟩)
        · exact ⟨Or.inl rfl, hx⟩
        · exact ⟨Or.inr h1, fun hs => h2 (Or.inr hs)⟩
      · rintro ⟨h1 | h1, h2⟩
        · exact Or.inl h1
        · by_cases hax : a = x
          · exact Or.inl hax
          · refine Or.inr ⟨h1, fun hs => ?_⟩
            rcases hs with h | h
            · exact hax h
            · exact h2 h

/-- Models `[...new Set(l)]` membership: dedup keeps exactly the elements. -/
theorem mem_dedupFirst (a : ℕ) (l : List ℕ) : a ∈ dedupFirst l ↔ a ∈ l := by
  rw [dedupFirst, mem_dedupAux]
  simp

/-- **C7**: `extractPromptIndexing` matches `[Reference]` and
`[Source <int>]` case-insensitively, classifies a referenced index as out
of range exactly when it is at least the caller-supplied `sourceCount`,
and on the spec's example prompt with `sourceCount = 2` yields
`usesReference`, indexes `{0, 5}` and out-of-range `{5}`. -/
theorem c7_prompt_indexing :
    (∀ (prompt : String) (sourceCount i : ℕ),
      i ∈ (extractPromptIndexing prompt sourceCount).outOfRange ↔
        i ∈ (extractPromptIndexing prompt sourceCount).sourceIndexes ∧ sourceCount ≤ i) ∧
    extractPromptIndexing "Use [Reference] with [Source 0] and [Source 5]" 2 =
      ⟨true, [0, 5], [5]⟩ ∧
    extractPromptIndexing "use [reference] with [SOURCE 0] and [sOuRcE 5]" 2 =
      ⟨true, [0, 5], [5]⟩ := by
  refine ⟨?_, by with_unfolding_all decide, by with_unfolding_all decide⟩
  intro prompt sourceCount i
  unfold extractPromptIndexing
  simp only [mem_dedupFirst, List.mem_filter, decide_eq_true_eq]

/-- **C2**: a weight supplied as a finite number or numeric string with
value `q` is accepted when `q ∈ [0,1]` and stored as `round4 q`, rejected
as WEIGHT_OUT_OF_RANGE when `q` is outside `[0,1]`; a non-numeric string is
rejected as INVALID_WEIGHT, and a non-finite number is rejected as
INVALID_WEIGHT before any range check. -/
theorem c2_weight_validation :
    (∀ (f : String) (q : ℚ) (v : JSValue),
        (v = JSValue.num (some q) ∨ ∃ s, v = JSValue.str s ∧ strToNumber s = some q) →
        (0 ≤ q → q ≤ 1 → ensureWeight v f = .ok (round4 q)) ∧
        (q < 0 ∨ 1 < q →
          ensureWeight v f = .error ⟨"WEIGHT_OUT_OF_RANGE", f ++ " must be in range [0, 1]"⟩)) ∧
    (∀ (f s : String), strToNumber s = none →
      ensureWeight (JSValue.str s) f = .error ⟨"INVALID_WEIGHT", f ++ " must be a valid number"⟩) ∧
    (∀ f : String, ensureWeight (JSValue.num none) f =
      .error ⟨"INVALID_WEIGHT", f ++ " must be a valid number"⟩) := by
  refine ⟨?_, ?_, ?_⟩
  · intro f q v hv
    have hnum : toNumber v = some q := by
      rcases hv with rfl | ⟨s, rfl, hs⟩
      · rfl
      · exact hs
    constructor
    · intro h0 h1
      unfold ensureWeight
      rw [hnum]
      dsimp only
      rw [if_neg (by push_neg; exact ⟨h0, h1⟩)]
    · intro hrange
      unfold ensureWeight
      rw [hnum]
      dsimp only
      rw [if_pos (by rcases hrange with h | h; exacts [Or.inl h, Or.inr h])]
  · intro f s hs
    unfold ensureWeight
    have ht : toNumber (JSValue.str s) = none := hs
    rw [ht]
  · intro f
    rfl

/-- Witness for C2 at concrete inputs. -/
theorem c2_weight_validation_witness :
    ensureWeight (JSValue.str "0.5") "reference.weight" = .ok (round4 (1/2)) ∧
    ensureWeight (JSValue.num (some 2)) "reference.weight" =
      .error ⟨"WEIGHT_OUT_OF_RANGE", "reference.weight must be in range [0, 1]"⟩ ∧
    ensureWeight (JSValue.str "abc") "reference.weight" =
      .error ⟨"INVALID_WEIGHT", "reference.weight must be a valid number"⟩ :=
  ⟨(c2_weight_validation.1 "reference.weight" (1/2) (JSValue.str "0.5")
      (Or.inr ⟨"0.5", rfl, by with_unfolding_all decide⟩)).1 (by norm_num) (by norm_num),
   (c2_weight_validation.1 "reference.weight" 2 (JSValue.num (some 2))
      (Or.inl rfl)).2 (Or.inr (by norm_num)),
   c2_weight_validation.2.1 "reference.weight" "abc" (by with_unfolding_all decide)⟩

/-- **C10**: `ensureWeight` coerces non-string non-number values with
`Number()`: `null` and the empty string are accepted and stored as 0, and
`true` is accepted and stored as 1, rather than being rejected as
non-numeric. -/
theorem c10_weight_coercion (f : String) :
    ensureWeight JSValue.null f = .ok 0 ∧
    ensureWeight (JSValue.str "") f = .ok 0 ∧
    ensureWeight (JSValue.bool true) f = .ok 1 := by
  have hr0 : round4 0 = 0 := by unfold round4; norm_num
  have hr1 : round4 1 = 1 := by unfold round4; norm_num
  refine ⟨?_, ?_, ?_⟩
  · unfold ensureWeight
    have ht : toNumber JSValue.null = some 0 := rfl
    rw [ht]
    dsimp only
    rw [if_neg (by norm_num), hr0]
  · unfold ensureWeight
    have ht : toNumber (JSValue.str "") = some 0 := rfl
    rw [ht]
    dsimp only
    rw [if_neg (by norm_num), hr0]
  · unfold ensureWeight
    have ht : toNumber (JSValue.bool true) = some 1 := rfl
    rw [ht]
    dsimp only
    rw [if_neg (by norm_num), hr1]

/-- The four feature-type constants are fixed points of upper-casing and
trimming, and non-empty. -/
theorem featureType_fixed {ft : String} (h : ft ∈ FEATURE_TYPES) :
    jsToUpperCase ft = ft ∧ jsTrimList ft.data = ft.data ∧ ft.data ≠ [] := by
  simp only [FEATURE_TYPES, List.mem_cons, List.not_mem_nil, or_false] at h
  rcases h with rfl | rfl | rfl | rfl <;>
    exact ⟨by with_unfolding_all decide, by with_unfolding_all decide, by with_unfolding_all decide⟩

/-- Re-validating the reference object `validateReference` returned
succeeds and returns it unchanged. -/
theorem validateReference_roundtrip {v : JSValue} {r : RefSpec}
    (h : validateReference v = .ok r) : validateReference (referenceToJS r) = .ok r := by
  unfold validateReference at h
  split at h
  · split at h
    · cases h
    · rename_i imageRef h1
      split at h
      · cases h
      · rename_i weight h2
        cases h
        obtain ⟨hfix, hne⟩ := ensureString_ok h1
        obtain ⟨h0, hw1, hr⟩ := ensureWeight_ok h2
        unfold validateReference
        have hrec : isRecord (referenceToJS ⟨imageRef, weight⟩) = true := rfl
        have hg1 : getField (referenceToJS ⟨imageRef, weight⟩) "imageRef" = .str imageRef := by
          simp [referenceToJS, getField, List.lookup]
        have hg2 : getField (referenceToJS ⟨imageRef, weight⟩) "weight" = .num (some weight) := by
          simp [referenceToJS, getField, List.lookup]
        rw [if_pos hrec, hg1, hg2,
          ensureString_fixed "reference.imageRef" false hfix (Or.inr (hne rfl)),
          ensureWeight_num_fixed "reference.weight" h0 hw1 hr]
  · cases h

/-- Re-validating the source object `validateSource` returned succeeds at
any index and returns it unchanged. -/
theorem validateSource_roundtrip {v : JSValue} {i : ℕ} {s : SourceSpec}
    (h : validateSource v i = .ok s) :
    ∀ j, validateSource (sourceToJS s) j = .ok s := by
  intro j
  unfold validateSource at h
  split at h
  · split at h
    · cases h
    · rename_i ft0 h1
      dsimp only at h
      by_cases hmem : jsToUpperCase ft0 ∈ FEATURE_TYPES
      · rw [if_pos hmem] at h
        split at h
        · cases h
        · rename_i imageRef h2
          split at h
          · cases h
          · rename_i weight h3
            cases h
            obtain ⟨hfix2, hne2⟩ := ensureString_ok h2
            obtain ⟨h0, hw1, hr⟩ := ensureWeight_ok h3
            obtain ⟨hup, hfixF, hneF⟩ := featureType_fixed hmem
            unfold validateSource
            have hrec : isRecord (sourceToJS ⟨imageRef, jsToUpperCase ft0, weight⟩) = true := rfl
            have hgF : getField (sourceToJS ⟨imageRef, jsToUpperCase ft0, weight⟩) "featureType" =
                .str (jsToUpperCase ft0) := by
              simp [sourceToJS, getField, List.lookup]
            have hg1 : getField (sourceToJS ⟨imageRef, jsToUpperCase ft0, weight⟩) "imageRef" =
                .str imageRef := by
              simp [sourceToJS, getField, List.lookup]
            have hg2 : getField (sourceToJS ⟨imageRef, jsToUpperCase ft0, weight⟩) "weight" =
                .num (some weight) := by
              simp [sourceToJS, getField, List.lookup]
            rw [if_pos hrec, hgF,
              ensureString_fixed ("sources[" ++ toString j ++ "].featureType") false hfixF
                (Or.inr hneF)]
            dsimp only
            rw [hup, if_pos hmem, hg1,
              ensureString_fixed ("sources[" ++ toString j ++ "].imageRef") false hfix2
                (Or.inr (hne2 rfl)), hg2,
              ensureWeight_num_fixed ("sources[" ++ toString j ++ "].weight") h0 hw1 hr]
      · rw [if_neg hmem] at h
        cases h
  · cases h

/-- Re-validating a validated source list succeeds from any start index and
returns it unchanged. -/
theorem validateSourcesFrom_roundtrip :
    ∀ (l : List JSValue) (k : ℕ) (srcs : List SourceSpec),
      validateSourcesFrom k l = .ok srcs →
      ∀ k', validateSourcesFrom k' (srcs.map sourceToJS) = .ok srcs := by
  intro l
  induction l with
  | nil =>
    intro k srcs h k'
    unfold validateSourcesFrom at h
    cases h
    rfl
  | cons v rest ih =>
    intro k srcs h k'
    unfold validateSourcesFrom at h
    split at h
    · cases h
    · rename_i s hs
      split at h
      · cases h
      · rename_i tail htail
        cases h
        show validateSourcesFrom k' (sourceToJS s :: tail.map sourceToJS) = .ok (s :: tail)
        unfold validateSourcesFrom
        rw [validateSource_roundtrip hs k', ih (k + 1) tail htail (k' + 1)]

/-- A validated source list is never empty. -/
theorem validateSourcesField_ok_ne_nil {v : JSValue} {srcs : List SourceSpec}
    (h : validateSourcesField v = .ok srcs) : srcs ≠ [] := by
  unfold validateSourcesField at h
  cases v with
  | arr elems =>
    cases elems with
    | nil => cases h
    | cons e rest =>
      dsimp only at h
      unfold validateSourcesFrom at h
      split at h
      · cases h
      · split at h
        · cases h
        · cases h
          simp
  | undefined => cases h
  | null => cases h
  | bool b => cases h
  | num o => cases h
  | str s => cases h
  | obj l => cases h

/-- What `validateNegativePrompt` guarantees about its result. -/
theorem validateNegativePrompt_ok {v : JSValue} {np : String}
    (h : validateNegativePrompt v = .ok np) : jsTrimList np.data = np.data := by
  unfold validateNegativePrompt at h
  cases v with
  | undefined =>
    cases h
    rfl
  | str s => exact (ensureString_ok h).1
  | null => cases h
  | bool b => cases h
  | num o => cases h
  | arr l => cases h
  | obj l => cases h

/-- **C6**: `validateGenerationContract` is idempotent — re-validating the
contract object it returned succeeds and yields the same contract (same
trimmed strings, same rounded weights, same upper-cased feature types,
same source order). -/
theorem c6_idempotent {input : JSValue} {c : GenerationContract}
    (h : validateGenerationContract input = .ok c) :
    validateGenerationContract (contractToJS c) = .ok c := by
  unfold validateGenerationContract at h
  split at h
  · split at h
    · cases h
    · rename_i taskId h1
      split at h
      · cases h
      · rename_i prompt h2
        split at h
        · cases h
        · rename_i negativePrompt h3
          split at h
          · cases h
          · rename_i reference h4
            split at h
            · cases h
            · rename_i sources h5
              cases h
              obtain ⟨hfixT, hneT⟩ := ensureString_ok h1
              obtain ⟨hfixP, hneP⟩ := ensureString_ok h2
              have hfixN := validateNegativePrompt_ok h3
              have hcJS : contractToJS ⟨taskId, prompt, negativePrompt, reference, sources, none⟩ =
                  .obj [("taskId", .str taskId), ("prompt", .str prompt),
                    ("negativePrompt", .str negativePrompt),
                    ("reference", referenceToJS reference),
                    ("sources", .arr (sources.map sourceToJS))] := by
                simp [contractToJS]
              unfold validateGenerationContract
              rw [hcJS]
              have hg1 : getField (JSValue.obj [("taskId", .str taskId), ("prompt", .str prompt),
                  ("negativePrompt", .str negativePrompt), ("reference", referenceToJS reference),
                  ("sources", .arr (sources.map sourceToJS))]) "taskId" = .str taskId := by
                simp [getField, List.lookup]
              have hg2 : getField (JSValue.obj [("taskId", .str taskId), ("prompt", .str prompt),
                  ("negativePrompt", .str negativePrompt), ("reference", referenceToJS reference),
                  ("sources", .arr (sources.map sourceToJS))]) "prompt" = .str prompt := by
                simp [getField, List.lookup]
              have hg3 : getField (JSValue.obj [("taskId", .str taskId), ("prompt", .str prompt),
                  ("negativePrompt", .str negativePrompt), ("reference", referenceToJS reference),
                  ("sources", .arr (sources.map sourceToJS))]) "negativePrompt" =
                  .str negativePrompt := by
                simp [getField, List.lookup]
              have hg4 : getField (JSValue.obj [("taskId", .str taskId), ("prompt", .str prompt),
                  ("negativePrompt", .str negativePrompt), ("reference", referenceToJS reference),
                  ("sources", .arr (sources.map sourceToJS))]) "reference" =
                  referenceToJS reference := by
                simp [getField, List.lookup]
              have hg5 : getField (JSValue.obj [("taskId", .str taskId), ("prompt", .str prompt),
                  ("negativePrompt", .str negativePrompt), ("reference", referenceToJS reference),
                  ("sources", .arr (sources.map sourceToJS))]) "sources" =
                  .arr (sources.map sourceToJS) := by
                simp [getField, List.lookup]
              have hnpfix : validateNegativePrompt (.str negativePrompt) = .ok negativePrompt :=
                ensureString_fixed "negativePrompt" true hfixN (Or.inl rfl)
              have hsrcs : validateSourcesField (.arr (sources.map sourceToJS)) = .ok sources := by
                have hne : sources ≠ [] := validateSourcesField_ok_ne_nil h5
                have hrt : validateSourcesFrom 0 (sources.map sourceToJS) = .ok sources := by
                  unfold validateSourcesField at h5
                  cases hv : getField input "sources" with
                  | arr elems =>
                    rw [hv] at h5
                    cases elems with
                    | nil => cases h5
                    | cons e rest =>
                      dsimp only at h5
                      exact validateSourcesFrom_roundtrip (e :: rest) 0 sources h5 0
                  | undefined => rw [hv] at h5; cases h5
                  | null => rw [hv] at h5; cases h5
                  | bool b => rw [hv] at h5; cases h5
                  | num o => rw [hv] at h5; cases h5
                  | str s => rw [hv] at h5; cases h5
                  | obj l => rw [hv] at h5; cases h5
                unfold validateSourcesField
                cases hmap : sources.map sourceToJS with
                | nil =>
                  exact absurd (List.map_eq_nil_iff.mp hmap) hne
                | cons m ms =>
                  rw [hmap] at hrt
                  exact hrt
              have hrec : isRecord (JSValue.obj [("taskId", .str taskId), ("prompt", .str prompt),
                  ("negativePrompt", .str negativePrompt), ("reference", referenceToJS reference),
                  ("sources", .arr (sources.map sourceToJS))]) = true := rfl
              rw [if_pos hrec, hg1,
                ensureString_fixed "taskId" false hfixT (Or.inr (hneT rfl)), hg2,
                ensureString_fixed "prompt" false hfixP (Or.inr (hneP rfl))]
              dsimp only
              rw [hg3, hnpfix]
              dsimp only
              rw [hg4, validateReference_roundtrip h4]
              dsimp only
              rw [hg5, hsrcs]
  · cases h

/-- Witness for C6: the demo body validates, and re-validating the result
returns the same contract. -/
theorem c6_idempotent_witness :
    validateGenerationContract demoBody = .ok demoContract ∧
    validateGenerationContract (contractToJS demoContract) = .ok demoContract :=
  ⟨by with_unfolding_all decide, @c6_idempotent demoBody demoContract (by with_unfolding_all decide)⟩

/-- **C8**: on a record input, `validateGenerationContract` fails exactly
with the first violation of the independently-run field checks in the fixed
order taskId → prompt → negativePrompt → reference → sources; on a
non-record input it fails with INVALID_CONTRACT; and the sources check
reports the error of the first source (in array order) that fails, all
earlier sources validating cleanly. The embedding is a pure function, so
no step mutates the input or performs I/O. -/
theorem c8_first_violation :
    (∀ (input : JSValue) (e : ContractValidationError), isRecord input = true →
      (validateGenerationContract input = .error e ↔ firstContractViolation input = some e)) ∧
    (∀ (input : JSValue) (e : ContractValidationError), isRecord input = false →
      (validateGenerationContract input = .error e ↔
        e = ⟨"INVALID_CONTRACT", "Generation Contract must be an object"⟩)) ∧
    (∀ (l : List JSValue) (k : ℕ) (e : ContractValidationError),
      validateSourcesFrom k l = .error e ↔
        ∃ i v, l.get? i = some v ∧ validateSource v (k + i) = .error e ∧
          ∀ j w, j < i → l.get? j = some w → ∃ s, validateSource w (k + j) = .ok s) := by
  refine ⟨?_, ?_, ?_⟩
  · intro input e hrec
    unfold validateGenerationContract firstContractViolation contractFieldViolations
    rw [if_pos hrec]
    cases h1 : ensureString (getField input "taskId") "taskId" false with
    | error e1 => simp [firstSome, errOpt, h1]
    | ok t1 =>
      cases h2 : ensureString (getField input "prompt") "prompt" false with
      | error e2 => simp [firstSome, errOpt, h1, h2]
      | ok t2 =>
        cases h3 : validateNegativePrompt (getField input "negativePrompt") with
        | error e3 => simp [firstSome, errOpt, h1, h2, h3]
        | ok t3 =>
          cases h4 : validateReference (getField input "reference") with
          | error e4 => simp [firstSome, errOpt, h1, h2, h3, h4]
          | ok t4 =>
            cases h5 : validateSourcesField (getField input "sources") with
            | error e5 => simp [firstSome, errOpt, h1, h2, h3, h4, h5]
            | ok t5 => simp [firstSome, errOpt, h1, h2, h3, h4, h5]
  · intro input e hrec
    unfold validateGenerationContract
    rw [if_neg (by simp [hrec])]
    constructor
    · intro h
      cases h
      rfl
    · intro h
      rw [h]
  · intro l
    induction l with
    | nil =>
      intro k e
      constructor
      · intro h
        cases h
      · rintro ⟨i, v, hget, _, _⟩
        simp at hget
    | cons v rest ih =>
      intro k e
      unfold validateSourcesFrom
      cases hs : validateSource v k with
      | error e0 =>
        dsimp only
        constructor
        · intro h
          cases h
          exact ⟨0, v, rfl, by rw [Nat.add_zero]; exact hs, by intro j w hj _; omega⟩
        · rintro ⟨i, w, hget, herr, hprev⟩
          cases i with
          | zero =>
            have hw : w = v := by simp at hget; exact hget.symm
            subst hw
            rw [Nat.add_zero, hs] at herr
            cases herr
            rfl
          | succ j =>
            obtain ⟨s, hsok⟩ := hprev 0 v (Nat.succ_pos j) rfl
            rw [Nat.add_zero, hs] at hsok
            cases hsok
      | ok s0 =>
        cases ht : validateSourcesFrom (k + 1) rest with
        | error e1 =>
          dsimp only
          constructor
          · intro h
            cases h
            obtain ⟨i, w, hget, herr, hprev⟩ := (ih (k + 1) _).mp ht
            refine ⟨i + 1, w, by simpa using hget, ?_, ?_⟩
            · rw [show k + (i + 1) = (k + 1) + i by omega]
              exact herr
            · intro j w' hj hget'
              cases j with
              | zero =>
                have hw : w' = v := by simp at hget'; exact hget'.symm
                subst hw
                exact ⟨s0, by rw [Nat.add_zero]; exact hs⟩
              | succ j' =>
                have hstep := hprev j' w' (by omega) (by simpa using hget')
                rw [show k + (j' + 1) = (k + 1) + j' by omega]
                exact hstep
          · rintro ⟨i, w, hget, herr, hprev⟩
            cases i with
            | zero =>
              have hw : w = v := by simp at hget; exact hget.symm
              subst hw
              rw [Nat.add_zero, hs] at herr
              cases herr
            | succ i' =>
              have hrest := (ih (k + 1) e).mpr
                ⟨i', w, by simpa using hget,
                  by rw [show (k + 1) + i' = k + (i' + 1) by omega]; exact herr,
                  fun j w' hj hget' => by
                    have hstep := hprev (j + 1) w' (by omega) (by simpa using hget')
                    rw [show (k + 1) + j = k + (j + 1) by omega]
                    exact hstep⟩
              rw [ht] at hrest
              cases hrest
              rfl
        | ok tail =>
          dsimp only
          constructor
          · intro h
            cases h
          · rintro ⟨i, w, hget, herr, hprev⟩
            exfalso
            cases i with
            | zero =>
              have hw : w = v := by simp at hget; exact hget.symm
              subst hw
              rw [Nat.add_zero, hs] at herr
              cases herr
            | succ i' =>
              have hrest := (ih (k + 1) e).mpr
                ⟨i', w, by simpa using hget,
                  by rw [show (k + 1) + i' = k + (i' + 1) by omega]; exact herr,
                  fun j w' hj hget' => by
                    have hstep := hprev (j + 1) w' (by omega) (by simpa using hget')
                    rw [show (k + 1) + j = k + (j + 1) by omega]
                    exact hstep⟩
              rw [ht] at hrest
              cases hrest

/-- Witness for C8: a record input whose prompt and reference are both
invalid fails with the prompt error (the first violation in order), and a
non-record input fails with INVALID_CONTRACT. -/
theorem c8_first_violation_witness :
    validateGenerationContract
        (JSValue.obj [("taskId", .str "t1"), ("prompt", .num (some 3)), ("reference", .null)]) =
      .error ⟨"INVALID_STRING", "prompt must be a string"⟩ ∧
    validateGenerationContract JSValue.null =
      .error ⟨"INVALID_CONTRACT", "Generation Contract must be an object"⟩ ∧
    validateSourcesFrom 0 [sourceToJS ⟨"data:x", "STYLE", 1/2⟩, JSValue.null] =
      .error ⟨"INVALID_SOURCE", "sources[1] must be an object"⟩ := by
  refine ⟨?_, ?_, ?_⟩
  · exact (c8_first_violation.1
      (JSValue.obj [("taskId", .str "t1"), ("prompt", .num (some 3)), ("reference", .null)])
      ⟨"INVALID_STRING", "prompt must be a string"⟩ rfl).mpr (by with_unfolding_all decide)
  · exact (c8_first_violation.2.1 JSValue.null
      ⟨"INVALID_CONTRACT", "Generation Contract must be an object"⟩ rfl).mpr rfl
  · exact (c8_first_violation.2.2 [sourceToJS ⟨"data:x", "STYLE", 1/2⟩, JSValue.null] 0
      ⟨"INVALID_SOURCE", "sources[1] must be an object"⟩).mpr
      ⟨1, JSValue.null, rfl, by with_unfolding_all decide,
        by
          intro j w hj hget
          interval_cases j
          have hw : some (sourceToJS ⟨"data:x", "STYLE", 1/2⟩) = some w := hget
          cases hw
          exact ⟨⟨"data:x", "STYLE", 1/2⟩, by with_unfolding_all decide⟩⟩

/-- Membership in the filtered warnings list. -/
theorem mem_warningsOf {v : JSValue} {w : String} :
    w ∈ warningsOf v ↔ ∃ xs, v = JSValue.arr xs ∧ JSValue.str w ∈ xs ∧ jsTrimList w.data ≠ [] := by
  cases v with
  | arr xs =>
    simp only [warningsOf, List.mem_filterMap]
    constructor
    · rintro ⟨item, hmem, hsome⟩
      cases item with
      | str s =>
        dsimp only at hsome
        by_cases hb : jsTrimList s.data = []
        · rw [if_pos hb] at hsome
          cases hsome
        · rw [if_neg hb] at hsome
          cases hsome
          exact ⟨xs, rfl, hmem, hb⟩
      | undefined => cases hsome
      | null => cases hsome
      | bool b => cases hsome
      | num o => cases hsome
      | arr l => cases hsome
      | obj l => cases hsome
    · rintro ⟨xs', hxs, hmem, hb⟩
      cases hxs
      exact ⟨JSValue.str w, hmem, by dsimp only; rw [if_neg hb]⟩
  | undefined => simp [warningsOf]
  | null => simp [warningsOf]
  | bool b => simp [warningsOf]
  | num o => simp [warningsOf]
  | str s => simp [warningsOf]
  | obj l => simp [warningsOf]

/-- **C9**: every successful `createStatusResponse` projection emits
`outputUrl`/`errorCode`/`message` through the trim-or-null normalisation
(null for absent, non-string, or blank-after-trim values), keeps exactly
the non-blank string warnings, and carries an upper-cased status from the
status enum; a non-blank status string whose upper-casing is outside the
enum is rejected with INVALID_STATUS_VALUE. -/
theorem c9_status_normalization :
    (∀ (now : String) (input : JSValue) (r : StatusResponse),
      createStatusResponse now input = .ok r →
        r.outputUrl = normTrimOpt (getField input "outputUrl") ∧
        r.errorCode = normTrimOpt (getField input "errorCode") ∧
        r.message = normTrimOpt (getField input "message") ∧
        r.warnings = warningsOf (getField input "warnings") ∧
        r.status ∈ TASK_STATUSES) ∧
    (∀ s : String, normTrimOpt (JSValue.str s) =
      if jsTrimList s.data = [] then none else some ⟨jsTrimList s.data⟩) ∧
    (∀ v : JSValue, (∀ s, v ≠ JSValue.str s) → normTrimOpt v = none) ∧
    (∀ (now : String) (input : JSValue) (tid st : String), isRecord input = true →
      ensureString (getField input "taskId") "taskId" false = .ok tid →
      ensureString (getField input "status") "status" false = .ok st →
      ((jsToUpperCase st ∈ TASK_STATUSES →
        ∃ r, createStatusResponse now input = .ok r ∧ r.status = jsToUpperCase st) ∧
       (jsToUpperCase st ∉ TASK_STATUSES →
        createStatusResponse now input =
          .error ⟨"INVALID_STATUS_VALUE",
            "status must be one of " ++ String.intercalate ", " TASK_STATUSES⟩))) := by
  refine ⟨?_, ?_, ?_, ?_⟩
  · intro now input r h
    unfold createStatusResponse at h
    split at h
    · split at h
      · cases h
      · rename_i tid h1
        split at h
        · cases h
        · rename_i st h2
          dsimp only at h
          split at h
          · rename_i hmem
            cases h
            exact ⟨rfl, rfl, rfl, rfl, hmem⟩
          · cases h
    · cases h
  · intro s
    rfl
  · intro v hv
    cases v with
    | str s => exact absurd rfl (hv s)
    | undefined => rfl
    | null => rfl
    | bool b => rfl
    | num o => rfl
    | arr l => rfl
    | obj l => rfl
  · intro now input tid st hrec h1 h2
    constructor
    · intro hmem
      unfold createStatusResponse
      rw [if_pos hrec, h1]
      dsimp only
      rw [h2]
      dsimp only
      rw [if_pos hmem]
      exact ⟨_, rfl, rfl⟩
    · intro hmem
      unfold createStatusResponse
      rw [if_pos hrec, h1]
      dsimp only
      rw [h2]
      dsimp only
      rw [if_neg hmem]

/-- Witness for C9 at a concrete projection: a lower-case status is
upper-cased, a non-string outputUrl and a blank errorCode become null, a
message is trimmed, blank and non-string warnings are dropped, and an
unknown status is rejected. -/
theorem c9_status_normalization_witness :
    (∃ r, createStatusResponse "NOW"
        (JSValue.obj [("taskId", .str "t1"), ("status", .str "queued"),
          ("outputUrl", .num (some 3)), ("errorCode", .str "  "),
          ("message", .str " boom "),
          ("warnings", .arr [.str "keep", .str "  ", .num none, .bool true])]) = .ok r ∧
      r.status = jsToUpperCase "queued" ∧
      r.outputUrl = none ∧ r.errorCode = none ∧ r.message = some (jsTrim " boom ") ∧
      r.warnings = ["keep"]) ∧
    createStatusResponse "NOW"
        (JSValue.obj [("taskId", .str "t1"), ("status", .str "weird")]) =
      .error ⟨"INVALID_STATUS_VALUE",
        "status must be one of " ++ String.intercalate ", " TASK_STATUSES⟩ := by
  constructor
  · obtain ⟨r, hr, hst⟩ :=
      ((c9_status_normalization.2.2.2 "NOW"
        (JSValue.obj [("taskId", .str "t1"), ("status", .str "queued"),
          ("outputUrl", .num (some 3)), ("errorCode", .str "  "),
          ("message", .str " boom "),
          ("warnings", .arr [.str "keep", .str "  ", .num none, .bool true])])
        "t1" "queued" rfl (by with_unfolding_all decide) (by with_unfolding_all decide)).1
        (by with_unfolding_all decide))
    obtain ⟨hu, he, hm, hw, _⟩ := c9_status_normalization.1 "NOW" _ r hr
    refine ⟨r, hr, hst, ?_, ?_, ?_, ?_⟩
    · rw [hu]; with_unfolding_all decide
    · rw [he]; with_unfolding_all decide
    · rw [hm]; with_unfolding_all decide
    · rw [hw]; with_unfolding_all decide
  · exact ((c9_status_normalization.2.2.2 "NOW"
      (JSValue.obj [("taskId", .str "t1"), ("status", .str "weird")])
      "t1" "weird" rfl (by with_unfolding_all decide) (by with_unfolding_all decide)).2
      (by with_unfolding_all decide))

/-- Length of an index-aware map. -/
theorem mapIdxFrom_length {α β : Type _} (f : ℕ → α → β) :
    ∀ (k : ℕ) (l : List α), (mapIdxFrom k f l).length = l.length := by
  intro k l
  induction l generalizing k with
  | nil => rfl
  | cons x xs ih => simp [mapIdxFrom, ih]

/-- Element of an index-aware map. -/
theorem mapIdxFrom_get? {α β : Type _} (f : ℕ → α → β) :
    ∀ (l : List α) (k i : ℕ), (mapIdxFrom k f l).get? i = (l.get? i).map (f (k + i)) := by
  intro l
  induction l with
  | nil => intro k i; cases i <;> rfl
  | cons x xs ih =>
    intro k i
    cases i with
    | zero => rfl
    | succ j =>
      show (mapIdxFrom (k + 1) f xs).get? j = (xs.get? j).map (f (k + (j + 1)))
      rw [ih (k + 1) j, show k + 1 + j = k + (j + 1) by omega]

/-- **C4 (amended)**: the request parts are the intro text, then the
reference image, then one `Source <i> image` marker per source in index
order, then all the source images in original contract order — the markers
are grouped together before the image block rather than interleaved with
it. -/
theorem c4_layout (c : GenerationContract) (refD : InlineImage) (srcDs : List InlineImage) :
    (requestContents c refD srcDs).length = 2 + 2 * srcDs.length ∧
    (requestContents c refD srcDs).get? 0 = some (GPart.text (introText c)) ∧
    (requestContents c refD srcDs).get? 1 = some (GPart.inlineData refD) ∧
    (∀ i, i < srcDs.length →
      (requestContents c refD srcDs).get? (2 + i) =
        some (GPart.text ("Source " ++ toString i ++ " image"))) ∧
    (∀ i, (requestContents c refD srcDs).get? (2 + srcDs.length + i) =
      (srcDs.get? i).map GPart.inlineData) := by
  have hexp : requestContents c refD srcDs =
      GPart.text (introText c) :: GPart.inlineData refD ::
        (mapIdxFrom 0 (fun i _ => GPart.text ("Source " ++ toString i ++ " image")) srcDs ++
          srcDs.map GPart.inlineData) := by
    simp [requestContents]
  have hmlen : (mapIdxFrom 0 (fun i _ => GPart.text ("Source " ++ toString i ++ " image")) srcDs).length =
      srcDs.length := mapIdxFrom_length _ 0 srcDs
  refine ⟨?_, ?_, ?_, ?_, ?_⟩
  · rw [hexp]
    simp [hmlen]
    omega
  · rw [hexp]; rfl
  · rw [hexp]; rfl
  · intro i hi
    rw [hexp, show 2 + i = i + 1 + 1 by omega]
    rw [List.get?_cons_succ, List.get?_cons_succ]
    rw [List.get?_eq_getElem?, List.getElem?_append_left (by rw [hmlen]; exact hi),
      ← List.get?_eq_getElem?]
    rw [mapIdxFrom_get? _ srcDs 0 i, Nat.zero_add]
    obtain ⟨d, hd⟩ : ∃ d, srcDs.get? i = some d := by
      rw [List.get?_eq_get hi]
      exact ⟨_, rfl⟩
    rw [hd]
    rfl
  · intro i
    rw [hexp, show 2 + srcDs.length + i = srcDs.length + i + 1 + 1 by omega]
    rw [List.get?_cons_succ, List.get?_cons_succ]
    rw [List.get?_eq_getElem?, List.getElem?_append_right (by rw [hmlen]; omega)]
    rw [hmlen, show srcDs.length + i - srcDs.length = i by omega]
    rw [List.getElem?_map, ← List.get?_eq_getElem?]

/-- Witness for C4 (amended) at the demo contract with two resolved source
images: the marker block sits at positions 2-3 and the image block at 4-5. -/
theorem c4_layout_witness :
    (requestContents demoContract demoRefImage [demoSrcImage0, demoSrcImage1]).get? 3 =
      some (GPart.text "Source 1 image") ∧
    (requestContents demoContract demoRefImage [demoSrcImage0, demoSrcImage1]).get? 5 =
      some (GPart.inlineData demoSrcImage1) := by
  obtain ⟨hlen, h0, h1, hmark, himg⟩ :=
    c4_layout demoContract demoRefImage [demoSrcImage0, demoSrcImage1]
  constructor
  · have h := hmark 1 (by norm_num)
    rw [show (2:ℕ) + 1 = 3 from rfl] at h
    rw [h]
    with_unfolding_all decide
  · have h := himg 1
    rw [show 2 + [demoSrcImage0, demoSrcImage1].length + 1 = 5 from rfl] at h
    rw [h]
    with_unfolding_all decide

/-- **C4 (counterexample)**: with two sources the attached source images
are not each immediately preceded by their index marker — the part before
the first source image is the marker of the other source, because the code
emits all markers first and then all images. -/
theorem c4_counterexample :
    ¬ SourceImagesInterleaved
        (requestContents demoContract demoRefImage [demoSrcImage0, demoSrcImage1])
        [demoSrcImage0, demoSrcImage1] := by
  intro h
  obtain ⟨k, hk0, hkimg, hkprev⟩ := h 0 (by norm_num)
  have hlen : (requestContents demoContract demoRefImage [demoSrcImage0, demoSrcImage1]).length = 6 := by
    with_unfolding_all decide
  obtain ⟨hlt, -⟩ := List.get?_eq_some.mp hkimg
  rw [hlen] at hlt
  interval_cases k <;> revert hkimg hkprev <;> with_unfolding_all decide

/-- Helper: a contract returned by `validateGenerationContract` never
carries a `model` property. -/
theorem validate_model_none {input : JSValue} {c : GenerationContract}
    (h : validateGenerationContract input = .ok c) : c.model = none := by
  unfold validateGenerationContract at h
  split at h
  · split at h
    · cases h
    · split at h
      · cases h
      · split at h
        · cases h
        · split at h
          · cases h
          · split at h
            · cases h
            · cases h
              rfl
  · cases h

/-- **C5 (amended)**: for every contract the system accepts, the run's
workflow graph has exactly the three roles REFERENCE, TRACK_B, MERGE; the
MERGE node carries the resolved prompt but no model property; the resolved
model identifier lives on the graph's top level, and it is always the
configured default because validation drops any supplied `model`. -/
theorem c5_graph (defaultModel : String) :
    ∀ input c, validateGenerationContract input = .ok c →
      (graphForRun defaultModel c).nodes.map WGNode.role = ["REFERENCE", "TRACK_B", "MERGE"] ∧
      (∃ node ∈ (graphForRun defaultModel c).nodes,
        node.role = "MERGE" ∧ node.prompt = some c.prompt ∧ node.model = none) ∧
      (graphForRun defaultModel c).model = defaultModel := by
  intro input c h
  have hmodel : c.model = none := validate_model_none h
  refine ⟨rfl,
    ⟨⟨"gemini-generate", "MERGE", "generateContent", none, none, some c.prompt, none⟩,
      by simp [graphForRun, buildWorkflowGraph], rfl, rfl, rfl⟩, ?_⟩
  simp only [graphForRun, buildWorkflowGraph, resolveTargetModel, jsOrDefault, hmodel]
  by_cases hdm : defaultModel = "" <;> simp [hdm]

/-- Witness for C5 (amended) at the demo contract. -/
theorem c5_graph_witness :
    (graphForRun demoDefaultModel demoContract).nodes.map WGNode.role =
      ["REFERENCE", "TRACK_B", "MERGE"] ∧
    (graphForRun demoDefaultModel demoContract).model = demoDefaultModel :=
  ⟨(c5_graph demoDefaultModel demoBodyWithModel demoContract (by with_unfolding_all decide)).1,
   (c5_graph demoDefaultModel demoBodyWithModel demoContract
      (by with_unfolding_all decide)).2.2⟩

/-- **C5 (counterexample)**: submitting a contract with an explicit
`model: "custom-model"` refutes the claim as stated — the MERGE node
carries no model at all (the model sits on the graph top level), and the
resolved model is the configured default, not the supplied one, because
validation drops the `model` field. -/
theorem c5_counterexample : ¬ MergeNodeCarriesModel demoDefaultModel := by
  intro h
  obtain ⟨hroles, node, hmem, hrole, hprompt, hmodel⟩ :=
    h demoBodyWithModel demoContract (by with_unfolding_all decide)
  have hnodes : (graphForRun demoDefaultModel demoContract).nodes =
      [ ⟨"reference", "REFERENCE", "composition_constraint", some (9/10), none, none, none⟩
      , ⟨"feature-track", "TRACK_B", "multi_source_feature_fusion", none,
          some [⟨"source-0", "STYLE", 3/4⟩, ⟨"source-1", "COMPONENT", 13/20⟩], none, none⟩
      , ⟨"gemini-generate", "MERGE", "generateContent", none, none,
          some "Use [Reference] with [Source 0]", none⟩ ] := by
    with_unfolding_all decide
  rw [hnodes] at hmem
  fin_cases hmem <;> simp at hmodel

/-- Replacing a present key keeps it present with the new value. -/
theorem lookupTask_setTask_self :
    ∀ (ts : List (String × TaskRec)) (id : String) (v rec : TaskRec),
      lookupTask ts id = some rec → lookupTask (setTask ts id v) id = some v := by
  intro ts
  induction ts with
  | nil => intro id v rec h; cases h
  | cons p rest ih =>
    intro id v rec h
    obtain ⟨k, w⟩ := p
    by_cases hk : k = id
    · simp [setTask, lookupTask, hk]
    · rw [lookupTask, if_neg hk] at h
      rw [setTask, if_neg hk, lookupTask, if_neg hk]
      exact ih id v rec h

/-- Replacing one key leaves other keys untouched. -/
theorem lookupTask_setTask_ne :
    ∀ (ts : List (String × TaskRec)) (id id' : String) (v : TaskRec), id' ≠ id →
      lookupTask (setTask ts id v) id' = lookupTask ts id' := by
  intro ts
  induction ts with
  | nil => intro id id' v _; rfl
  | cons p rest ih =>
    intro id id' v hne
    obtain ⟨k, w⟩ := p
    by_cases hk : k = id
    · subst hk
      rw [setTask, if_pos rfl, lookupTask, lookupTask, if_neg (fun h => hne h.symm),
        if_neg (fun h => hne h.symm)]
    · rw [setTask, if_neg hk, lookupTask, lookupTask]
      by_cases hk' : k = id'
      · rw [if_pos hk', if_pos hk']
      · rw [if_neg hk', if_neg hk']
        exact ih id id' v hne

/-- Appending a fresh key does not affect other keys. -/
theorem lookupTask_append_other :
    ∀ (ts : List (String × TaskRec)) (k : String) (v : TaskRec) (id : String), k ≠ id →
      lookupTask (ts ++ [(k, v)]) id = lookupTask ts id := by
  intro ts
  induction ts with
  | nil =>
    intro k v id h
    simp [lookupTask, if_neg h]
  | cons p rest ih =>
    intro k v id h
    obtain ⟨k0, w⟩ := p
    rw [List.cons_append, lookupTask, lookupTask]
    by_cases hk : k0 = id
    · rw [if_pos hk, if_pos hk]
    · rw [if_neg hk, if_neg hk]
      exact ih k v id h

/-- Appending an absent key makes it present with the appended value. -/
theorem lookupTask_append_self :
    ∀ (ts : List (String × TaskRec)) (k : String) (v : TaskRec),
      lookupTask ts k = none → lookupTask (ts ++ [(k, v)]) k = some v := by
  intro ts
  induction ts with
  | nil => intro k v _; simp [lookupTask]
  | cons p rest ih =>
    intro k v h
    obtain ⟨k0, w⟩ := p
    rw [lookupTask] at h
    by_cases hk : k0 = k
    · rw [if_pos hk] at h; cases h
    · rw [if_neg hk] at h
      rw [List.cons_append, lookupTask, if_neg hk]
      exact ih k v h

/-- Deleting a key removes it. -/
theorem lookupTask_removeTask_self :
    ∀ (ts : List (String × TaskRec)) (id : String),
      lookupTask (removeTask ts id) id = none := by
  intro ts
  induction ts with
  | nil => intro id; rfl
  | cons p rest ih =>
    intro id
    obtain ⟨k, w⟩ := p
    by_cases hk : k = id
    · rw [removeTask, if_pos hk]
      exact ih id
    · rw [removeTask, if_neg hk, lookupTask, if_neg hk]
      exact ih id

/-- Deleting a key leaves other keys untouched. -/
theorem lookupTask_removeTask_ne :
    ∀ (ts : List (String × TaskRec)) (id id' : String), id' ≠ id →
      lookupTask (removeTask ts id) id' = lookupTask ts id' := by
  intro ts
  induction ts with
  | nil => intro id id' _; rfl
  | cons p rest ih =>
    intro id id' hne
    obtain ⟨k, w⟩ := p
    by_cases hk : k = id
    · subst hk
      rw [removeTask, if_pos rfl, lookupTask, if_neg (fun h => hne h.symm)]
      exact ih k id' hne
    · rw [removeTask, if_neg hk, lookupTask, lookupTask]
      by_cases hk' : k = id'
      · rw [if_pos hk', if_pos hk']
      · rw [if_neg hk', if_neg hk']
        exact ih id id' hne

/-- Element read after an in-place update at the same index. -/
theorem get?_set_self {α : Type _} :
    ∀ (l : List α) (i : ℕ) (x a : α), l.get? i = some a → (l.set i x).get? i = some x := by
  intro l
  induction l with
  | nil => intro i x a h; cases i <;> cases h
  | cons y ys ih =>
    intro i x a h
    cases i with
    | zero => rfl
    | succ j => exact ih j x a h

/-- Element read after an in-place update at a different index. -/
theorem get?_set_ne {α : Type _} :
    ∀ (l : List α) (i j : ℕ) (x : α), j ≠ i → (l.set i x).get? j = l.get? j := by
  intro l
  induction l with
  | nil => intro i j x _; cases i <;> rfl
  | cons y ys ih =>
    intro i j x hne
    cases i with
    | zero =>
      cases j with
      | zero => exact absurd rfl hne
      | succ j' => rfl
    | succ i' =>
      cases j with
      | zero => rfl
      | succ j' => exact ih i' j' x (fun h => hne (by rw [h]))

/-- An in-place update that preserves the projected value preserves the
projected list. -/
theorem map_set_same {α β : Type _} (f : α → β) :
    ∀ (l : List α) (i : ℕ) (x a : α), l.get? i = some a → f x = f a →
      (l.set i x).map f = l.map f := by
  intro l
  induction l with
  | nil => intro i x a h _; cases i <;> cases h
  | cons y ys ih =>
    intro i x a h hf
    cases i with
    | zero =>
      cases h
      simp [List.set, hf]
    | succ j =>
      simp only [List.set, List.map_cons]
      rw [ih j x a h hf]

/-- The empty server satisfies the invariant. -/
theorem srvInv_init : SrvInv initState := by
  refine ⟨?_, ?_, ?_, ?_⟩
  · intro r hr
    cases hr
  · exact List.nodup_nil
  · intro r hr
    cases hr
  · intro r hr
    cases hr

/-- Invariant preservation for a run transition that patches both the run's
phase and its task record (the PROCESSING start and the two terminal
updates), keeping the run's identity and the record's incarnation. -/
theorem srvInv_patch {s : SrvState} (hinv : SrvInv s) (i : ℕ) (r newr : RunState)
    (rec newrec : TaskRec) (lg : List (String × String))
    (hget : s.runs.get? i = some r)
    (hnd : r.phase ≠ RunPhase.done)
    (hlook : lookupTask s.tasks r.taskId = some rec)
    (hkey : newr.taskId = r.taskId) (hforInc : newr.forInc = r.forInc)
    (hinc : newrec.inc = rec.inc)
    (hps : (newr.phase = RunPhase.pending → newrec.status = "QUEUED") ∧
           (newr.phase = RunPhase.running → newrec.status = "PROCESSING")) :
    SrvInv { tasks := setTask s.tasks r.taskId newrec, runs := s.runs.set i newr,
             nextInc := s.nextInc, log := lg } := by
  have hrmem : r ∈ s.runs := List.get?_mem hget
  have hrecinc : rec.inc = r.forInc := hinv.align r hrmem hnd rec hlook
  have hnodup' : ((s.runs.set i newr).map RunState.forInc).Nodup := by
    rw [map_set_same RunState.forInc s.runs i newr r hget hforInc]
    exact hinv.forIncNodup
  have hnewmem : newr ∈ s.runs.set i newr :=
    List.get?_mem (get?_set_self s.runs i newr r hget)
  refine ⟨?_, hnodup', ?_, ?_⟩
  · intro r' hr'
    rcases List.mem_or_eq_of_mem_set hr' with hr'old | rfl
    · exact hinv.runBound r' hr'old
    · rw [hforInc]
      exact hinv.runBound r hrmem
  · intro r' hr' hnd' rec' hlk'
    rcases List.mem_or_eq_of_mem_set hr' with hr'old | rfl
    · by_cases hk : r'.taskId = r.taskId
      · rw [hk, lookupTask_setTask_self s.tasks r.taskId newrec rec hlook] at hlk'
        cases hlk'
        have hlook' : lookupTask s.tasks r'.taskId = some rec := by rw [hk]; exact hlook
        rw [hinc]
        exact hinv.align r' hr'old hnd' rec hlook' 
      · rw [lookupTask_setTask_ne s.tasks r.taskId r'.taskId newrec hk] at hlk'
        exact hinv.align r' hr'old hnd' rec' hlk'
    · rw [hkey, lookupTask_setTask_self s.tasks r.taskId newrec rec hlook] at hlk'
      cases hlk'
      rw [hinc, hforInc, hrecinc]
  · intro r' hr' rec' hlk' hinc'
    rcases List.mem_or_eq_of_mem_set hr' with hr'old | heq
    · by_cases hk : r'.taskId = r.taskId
      · rw [hk, lookupTask_setTask_self s.tasks r.taskId newrec rec hlook] at hlk'
        cases hlk'
        have hfi : r'.forInc = newr.forInc := by
          rw [hforInc, ← hrecinc, ← hinc, hinc']
        have : r' = newr :=
          List.inj_on_of_nodup_map hnodup' hr' hnewmem hfi
        subst this
        exact ⟨fun hp => hps.1 hp, fun hp => hps.2 hp⟩
      · rw [lookupTask_setTask_ne s.tasks r.taskId r'.taskId newrec hk] at hlk'
        exact hinv.phaseStatus r' hr'old rec' hlk' hinc'
    · subst heq
      rw [hkey, lookupTask_setTask_self s.tasks r.taskId newrec rec hlook] at hlk'
      cases hlk'
      exact ⟨fun hp => hps.1 hp, fun hp => hps.2 hp⟩

/-- Invariant preservation when a run dies without touching the store (the
early return of `runTask`, or a terminal update whose record was evicted). -/
theorem srvInv_killRun {s : SrvState} (hinv : SrvInv s) (i : ℕ) (r : RunState)
    (hget : s.runs.get? i = some r) :
    SrvInv { s with runs := s.runs.set i { r with phase := RunPhase.done } } := by
  have hrmem : r ∈ s.runs := List.get?_mem hget
  refine ⟨?_, ?_, ?_, ?_⟩
  · intro r' hr'
    rcases List.mem_or_eq_of_mem_set hr' with hr'old | rfl
    · exact hinv.runBound r' hr'old
    · exact hinv.runBound r hrmem
  · rw [map_set_same RunState.forInc s.runs i ⟨r.taskId, r.forInc, RunPhase.done⟩ r hget rfl]
    exact hinv.forIncNodup
  · intro r' hr' hnd' rec' hlk'
    rcases List.mem_or_eq_of_mem_set hr' with hr'old | rfl
    · exact hinv.align r' hr'old hnd' rec' hlk'
    · exact absurd rfl hnd'
  · intro r' hr' rec' hlk' hinc'
    rcases List.mem_or_eq_of_mem_set hr' with hr'old | rfl
    · exact hinv.phaseStatus r' hr'old rec' hlk' hinc'
    · constructor
      · intro hp
        cases hp
      · intro hp
        cases hp

/-- Invariant preservation for a progress patch: status, incarnation and
the run set are untouched. -/
theorem srvInv_progress {s : SrvState} (hinv : SrvInv s) (r : RunState)
    (rec : TaskRec) (st : ProgressInfo) (now : String) (lg : List (String × String))
    (hlook : lookupTask s.tasks r.taskId = some rec) :
    SrvInv { tasks := setTask s.tasks r.taskId { rec with progress := some st, updatedAt := now },
             runs := s.runs, nextInc := s.nextInc, log := lg } := by
  refine ⟨hinv.runBound, hinv.forIncNodup, ?_, ?_⟩
  · intro r' hr' hnd' rec' hlk'
    by_cases hk : r'.taskId = r.taskId
    · rw [hk, lookupTask_setTask_self s.tasks r.taskId _ rec hlook] at hlk'
      cases hlk'
      have hlook' : lookupTask s.tasks r'.taskId = some rec := by rw [hk]; exact hlook
      exact hinv.align r' hr' hnd' rec hlook'
    · rw [lookupTask_setTask_ne s.tasks r.taskId r'.taskId _ hk] at hlk'
      exact hinv.align r' hr' hnd' rec' hlk'
  · intro r' hr' rec' hlk' hinc'
    by_cases hk : r'.taskId = r.taskId
    · rw [hk, lookupTask_setTask_self s.tasks r.taskId _ rec hlook] at hlk'
      cases hlk'
      have hlook' : lookupTask s.tasks r'.taskId = some rec := by rw [hk]; exact hlook
      exact hinv.phaseStatus r' hr' rec hlook' hinc'
    · rw [lookupTask_setTask_ne s.tasks r.taskId r'.taskId _ hk] at hlk'
      exact hinv.phaseStatus r' hr' rec' hlk' hinc'

/-- Invariant preservation for a proviso-respecting task creation. -/
theorem srvInv_postCreate {s : SrvState} (hinv : SrvInv s) (c : GenerationContract) (now : String)
    (hlook : lookupTask s.tasks c.taskId = none)
    (hguard : ∀ r ∈ s.runs, r.taskId = c.taskId → r.phase = RunPhase.done) :
    SrvInv { tasks := s.tasks ++ [(c.taskId, createTaskRecord c now s.nextInc)],
             runs := s.runs ++ [⟨c.taskId, s.nextInc, RunPhase.pending⟩],
             nextInc := s.nextInc + 1, log := s.log } := by
  refine ⟨?_, ?_, ?_, ?_⟩
  · intro r hr
    rcases List.mem_append.mp hr with hold | hnew
    · exact Nat.lt_succ_of_lt (hinv.runBound r hold)
    · rw [List.mem_singleton] at hnew
      subst hnew
      exact Nat.lt_succ_self _
  · rw [List.map_append]
    refine List.Nodup.append hinv.forIncNodup (List.nodup_singleton _) ?_
    intro x hx hy
    rw [List.map_singleton, List.mem_singleton] at hy
    subst hy
    obtain ⟨r, hrmem, hfr⟩ := List.mem_map.mp hx
    have hb := hinv.runBound r hrmem
    dsimp only at hfr
    omega
  · intro r hr hnd rec hlk
    rcases List.mem_append.mp hr with hold | hnew
    · by_cases hk : r.taskId = c.taskId
      · exact absurd (hguard r hold hk) hnd
      · rw [lookupTask_append_other s.tasks c.taskId _ r.taskId (fun h => hk h.symm)] at hlk
        exact hinv.align r hold hnd rec hlk
    · rw [List.mem_singleton] at hnew
      subst hnew
      dsimp only at hlk ⊢
      rw [lookupTask_append_self s.tasks c.taskId _ hlook] at hlk
      cases hlk
      rfl
  · intro r hr rec hlk hinc
    rcases List.mem_append.mp hr with hold | hnew
    · by_cases hk : r.taskId = c.taskId
      · rw [hk, lookupTask_append_self s.tasks c.taskId _ hlook] at hlk
        cases hlk
        have hb := hinv.runBound r hold
        have hinc' : s.nextInc = r.forInc := hinc
        omega
      · rw [lookupTask_append_other s.tasks c.taskId _ r.taskId (fun h => hk h.symm)] at hlk
        exact hinv.phaseStatus r hold rec hlk hinc
    · rw [List.mem_singleton] at hnew
      subst hnew
      dsimp only at hlk ⊢
      rw [lookupTask_append_self s.tasks c.taskId _ hlook] at hlk
      cases hlk
      constructor
      · intro _
        rfl
      · intro hp
        cases hp

/-- Invariant preservation for an eviction. -/
theorem srvInv_evict {s : SrvState} (hinv : SrvInv s) (id : String) :
    SrvInv { s with tasks := removeTask s.tasks id } := by
  refine ⟨hinv.runBound, hinv.forIncNodup, ?_, ?_⟩
  · intro r hr hnd rec hlk
    by_cases hk : r.taskId = id
    · rw [hk, lookupTask_removeTask_self] at hlk
      cases hlk
    · rw [lookupTask_removeTask_ne s.tasks id r.taskId hk] at hlk
      exact hinv.align r hr hnd rec hlk
  · intro r hr rec hlk hinc
    by_cases hk : r.taskId = id
    · rw [hk, lookupTask_removeTask_self] at hlk
      cases hlk
    · rw [lookupTask_removeTask_ne s.tasks id r.taskId hk] at hlk
      exact hinv.phaseStatus r hr rec hlk hinc

/-- The invariant is preserved by every proviso-respecting step. -/
theorem srvInv_preserved {s s' : SrvState} (hinv : SrvInv s) (hstep : SrvSafeStep s s') :
    SrvInv s' := by
  cases hstep with
  | post body now hguard =>
    unfold postApply postTask
    cases hvc : validateGenerationContract body with
    | error e => exact hinv
    | ok c =>
      dsimp only
      by_cases hl : (lookupTask s.tasks c.taskId).isSome
      · rw [if_pos hl]
        exact hinv
      · rw [if_neg hl]
        have hnone : lookupTask s.tasks c.taskId = none := by
          cases h : lookupTask s.tasks c.taskId with
          | none => rfl
          | some rec =>
            rw [h] at hl
            exact absurd rfl hl
        exact srvInv_postCreate hinv c now hnone (hguard c hvc hnone)
  | runStart i now =>
    unfold startApply
    cases hget : s.runs.get? i with
    | none => exact hinv
    | some r =>
      dsimp only
      by_cases hp : r.phase = RunPhase.pending
      · rw [if_pos hp]
        cases hlk : lookupTask s.tasks r.taskId with
        | none => exact srvInv_killRun hinv i r hget
        | some rec =>
          exact srvInv_patch hinv i r ⟨r.taskId, r.forInc, RunPhase.running⟩ rec
            { rec with
              status := "PROCESSING"
              errorCode := none
              message := none
              outputUrl := none
              progress := some ⟨"QUEUED", 0⟩
              updatedAt := now }
            (s.log ++ [(r.taskId, "PROCESSING")]) hget
            (by rw [hp]; exact fun h => nomatch h) hlk rfl rfl rfl
            ⟨fun h => (nomatch h), fun _ => rfl⟩
      · rw [if_neg hp]
        exact hinv
  | runProgress i st now =>
    unfold progressApply
    cases hget : s.runs.get? i with
    | none => exact hinv
    | some r =>
      dsimp only
      by_cases hp : r.phase = RunPhase.running
      · rw [if_pos hp]
        cases hlk : lookupTask s.tasks r.taskId with
        | none => exact hinv
        | some rec => exact srvInv_progress hinv r rec st now _ hlk
      · rw [if_neg hp]
        exact hinv
  | runFinishOk i res now =>
    unfold finishOkApply
    cases hget : s.runs.get? i with
    | none => exact hinv
    | some r =>
      dsimp only
      by_cases hp : r.phase = RunPhase.running
      · rw [if_pos hp]
        cases hlk : lookupTask s.tasks r.taskId with
        | none => exact srvInv_killRun hinv i r hget
        | some rec =>
          exact srvInv_patch hinv i r ⟨r.taskId, r.forInc, RunPhase.done⟩ rec
            { rec with
              status := "SUCCESS"
              outputUrl := some ("/outputs/" ++ r.taskId ++ "." ++ res.outputExtension)
              errorCode := none
              message := if res.warnings = [] then none else some "completed_with_warnings"
              warnings := res.warnings
              workflowGraph := some res.workflowGraph
              progress := some ⟨"DONE", 1⟩
              updatedAt := now }
            (s.log ++ [(r.taskId, "SUCCESS")]) hget
            (by rw [hp]; exact fun h => nomatch h) hlk rfl rfl rfl
            ⟨fun h => (nomatch h), fun h => (nomatch h)⟩
      · rw [if_neg hp]
        exact hinv
  | runFinishErr i err now =>
    unfold finishErrApply
    cases hget : s.runs.get? i with
    | none => exact hinv
    | some r =>
      dsimp only
      by_cases hp : r.phase = RunPhase.running
      · rw [if_pos hp]
        cases hlk : lookupTask s.tasks r.taskId with
        | none => exact srvInv_killRun hinv i r hget
        | some rec =>
          exact srvInv_patch hinv i r ⟨r.taskId, r.forInc, RunPhase.done⟩ rec
            { rec with
              status := "FAILED"
              outputUrl := none
              errorCode := some err.code
              message := some err.message
              updatedAt := now }
            (s.log ++ [(r.taskId, "FAILED")]) hget
            (by rw [hp]; exact fun h => nomatch h) hlk rfl rfl rfl
            ⟨fun h => (nomatch h), fun h => (nomatch h)⟩
      · rw [if_neg hp]
        exact hinv
  | evict id => exact srvInv_evict hinv id

/-- Under the invariant, every proviso-respecting step moves each surviving
task record's status only along the forward path. -/
theorem srvSafeStep_statusMono {s s' : SrvState} (hinv : SrvInv s)
    (hstep : SrvSafeStep s s') : StatusMono s s' := by
  cases hstep with
  | post body now hguard =>
    intro id rec rec' h1 h2 hinc
    revert h2
    unfold postApply postTask
    cases hvc : validateGenerationContract body with
    | error e =>
      intro h2
      dsimp only at h2
      rw [h1] at h2
      cases h2
      exact Or.inl rfl
    | ok c =>
      dsimp only
      by_cases hl : (lookupTask s.tasks c.taskId).isSome
      · rw [if_pos hl]
        intro h2
        dsimp only at h2
        rw [h1] at h2
        cases h2
        exact Or.inl rfl
      · rw [if_neg hl]
        intro h2
        dsimp only at h2
        have hkne : c.taskId ≠ id := by
          intro he
          rw [he, h1] at hl
          exact hl rfl
        rw [lookupTask_append_other s.tasks c.taskId _ id hkne, h1] at h2
        cases h2
        exact Or.inl rfl
  | runStart i now =>
    intro id rec rec' h1 h2 hinc
    revert h2
    unfold startApply
    cases hget : s.runs.get? i with
    | none =>
      intro h2
      rw [h1] at h2
      cases h2
      exact Or.inl rfl
    | some r =>
      dsimp only
      by_cases hp : r.phase = RunPhase.pending
      · rw [if_pos hp]
        cases hlk : lookupTask s.tasks r.taskId with
        | none =>
          intro h2
          dsimp only at h2
          rw [h1] at h2
          cases h2
          exact Or.inl rfl
        | some rec0 =>
          intro h2
          dsimp only at h2
          have hrmem : r ∈ s.runs := List.get?_mem hget
          have hnd : r.phase ≠ RunPhase.done := by
            rw [hp]
            exact fun h => (nomatch h)
          have hincr : rec0.inc = r.forInc := hinv.align r hrmem hnd rec0 hlk
          have hq : rec0.status = "QUEUED" :=
            (hinv.phaseStatus r hrmem rec0 hlk hincr).1 hp
          by_cases hk : id = r.taskId
          · subst hk
            rw [lookupTask_setTask_self s.tasks r.taskId _ rec0 hlk] at h2
            cases h2
            rw [h1] at hlk
            cases hlk
            exact Or.inr (Or.inl ⟨hq, rfl⟩)
          · rw [lookupTask_setTask_ne s.tasks r.taskId id _ hk, h1] at h2
            cases h2
            exact Or.inl rfl
      · rw [if_neg hp]
        intro h2
        rw [h1] at h2
        cases h2
        exact Or.inl rfl
  | runProgress i st now =>
    intro id rec rec' h1 h2 hinc
    revert h2
    unfold progressApply
    cases hget : s.runs.get? i with
    | none =>
      intro h2
      rw [h1] at h2
      cases h2
      exact Or.inl rfl
    | some r =>
      dsimp only
      by_cases hp : r.phase = RunPhase.running
      · rw [if_pos hp]
        cases hlk : lookupTask s.tasks r.taskId with
        | none =>
          intro h2
          rw [h1] at h2
          cases h2
          exact Or.inl rfl
        | some rec0 =>
          intro h2
          dsimp only at h2
          by_cases hk : id = r.taskId
          · subst hk
            rw [lookupTask_setTask_self s.tasks r.taskId _ rec0 hlk] at h2
            cases h2
            rw [h1] at hlk
            cases hlk
            exact Or.inl rfl
          · rw [lookupTask_setTask_ne s.tasks r.taskId id _ hk, h1] at h2
            cases h2
            exact Or.inl rfl
      · rw [if_neg hp]
        intro h2
        rw [h1] at h2
        cases h2
        exact Or.inl rfl
  | runFinishOk i res now =>
    intro id rec rec' h1 h2 hinc
    revert h2
    unfold finishOkApply
    cases hget : s.runs.get? i with
    | none =>
      intro h2
      rw [h1] at h2
      cases h2
      exact Or.inl rfl
    | some r =>
      dsimp only
      by_cases hp : r.phase = RunPhase.running
      · rw [if_pos hp]
        cases hlk : lookupTask s.tasks r.taskId with
        | none =>
          intro h2
          dsimp only at h2
          rw [h1] at h2
          cases h2
          exact Or.inl rfl
        | some rec0 =>
          intro h2
          dsimp only at h2
          have hrmem : r ∈ s.runs := List.get?_mem hget
          have hnd : r.phase ≠ RunPhase.done := by
            rw [hp]
            exact fun h => (nomatch h)
          have hincr : rec0.inc = r.forInc := hinv.align r hrmem hnd rec0 hlk
          have hq : rec0.status = "PROCESSING" :=
            (hinv.phaseStatus r hrmem rec0 hlk hincr).2 hp
          by_cases hk : id = r.taskId
          · subst hk
            rw [lookupTask_setTask_self s.tasks r.taskId _ rec0 hlk] at h2
            cases h2
            rw [h1] at hlk
            cases hlk
            exact Or.inr (Or.inr ⟨hq, Or.inl rfl⟩)
          · rw [lookupTask_setTask_ne s.tasks r.taskId id _ hk, h1] at h2
            cases h2
            exact Or.inl rfl
      · rw [if_neg hp]
        intro h2
        rw [h1] at h2
        cases h2
        exact Or.inl rfl
  | runFinishErr i err now =>
    intro id rec rec' h1 h2 hinc
    revert h2
    unfold finishErrApply
    cases hget : s.runs.get? i with
    | none =>
      intro h2
      rw [h1] at h2
      cases h2
      exact Or.inl rfl
    | some r =>
      dsimp only
      by_cases hp : r.phase = RunPhase.running
      · rw [if_pos hp]
        cases hlk : lookupTask s.tasks r.taskId with
        | none =>
          intro h2
          dsimp only at h2
          rw [h1] at h2
          cases h2
          exact Or.inl rfl
        | some rec0 =>
          intro h2
          dsimp only at h2
          have hrmem : r ∈ s.runs := List.get?_mem hget
          have hnd : r.phase ≠ RunPhase.done := by
            rw [hp]
            exact fun h => (nomatch h)
          have hincr : rec0.inc = r.forInc := hinv.align r hrmem hnd rec0 hlk
          have hq : rec0.status = "PROCESSING" :=
            (hinv.phaseStatus r hrmem rec0 hlk hincr).2 hp
          by_cases hk : id = r.taskId
          · subst hk
            rw [lookupTask_setTask_self s.tasks r.taskId _ rec0 hlk] at h2
            cases h2
            rw [h1] at hlk
            cases hlk
            exact Or.inr (Or.inr ⟨hq, Or.inr rfl⟩)
          · rw [lookupTask_setTask_ne s.tasks r.taskId id _ hk, h1] at h2
            cases h2
            exact Or.inl rfl
      · rw [if_neg hp]
        intro h2
        rw [h1] at h2
        cases h2
        exact Or.inl rfl
  | evict id0 =>
    intro id rec rec' h1 h2 hinc
    dsimp only [evictApply] at h2
    by_cases hk : id = id0
    · rw [hk, lookupTask_removeTask_self] at h2
      cases h2
    · rw [lookupTask_removeTask_ne s.tasks id0 id hk, h1] at h2
      cases h2
      exact Or.inl rfl

/-- **C1 (amended)**: along every execution in which a taskId is never
re-created while an earlier run for the same taskId is still in flight,
every task record's status follows the forward-only path
QUEUED → PROCESSING → SUCCESS/FAILED: it never regresses, never skips
PROCESSING, and never changes once terminal. (Without that proviso the
property fails; see the stale-run counterexample.) -/
theorem c1_amended : ∀ s s', ReachableSafe s → SrvSafeStep s s' → StatusMono s s' := by
  intro s s' hreach hstep
  have hinv : SrvInv s := by
    clear hstep
    induction hreach with
    | refl => exact srvInv_init
    | tail hr hs ih => exact srvInv_preserved ih hs
  exact srvSafeStep_statusMono hinv hstep

/-- Witness for C1 (amended): from the empty server, create the demo task
(the proviso holds trivially) and start its run. -/
theorem c1_amended_witness : StatusMono cexS1 cexS2 :=
  c1_amended cexS1 cexS2
    (Relation.ReflTransGen.single
      (SrvSafeStep.post initState demoBody "T1"
        (fun c hc hl r hr => absurd hr (List.not_mem_nil r))))
    (SrvSafeStep.runStart cexS1 0 "T2")

/-- **C1 (counterexample)**: the claim as stated is false. A task's run can
outlive the one-hour retention eviction (the provider call has no timeout
and eviction does not cancel it); once the taskId is re-created, the stale
run's catch block overwrites the new record's terminal SUCCESS with
FAILED. -/
theorem c1_counterexample : ¬ ClaimC1 := by
  intro h
  have h1 : SrvStep initState cexS1 := SrvStep.post initState demoBody "T1"
  have h2 : SrvStep cexS1 cexS2 := SrvStep.runStart cexS1 0 "T2"
  have h3 : SrvStep cexS2 cexS3 := SrvStep.evict cexS2 "t1"
  have h4 : SrvStep cexS3 cexS4 := SrvStep.post cexS3 demoBody "T4"
  have h5 : SrvStep cexS4 cexS5 := SrvStep.runStart cexS4 1 "T5"
  have h6 : SrvStep cexS5 cexS6 := SrvStep.runFinishOk cexS5 1 demoRunSuccess "T6"
  have hreach : ReachableStep cexS6 :=
    Relation.ReflTransGen.tail
      (Relation.ReflTransGen.tail
        (Relation.ReflTransGen.tail
          (Relation.ReflTransGen.tail
            (Relation.ReflTransGen.tail (Relation.ReflTransGen.single h1) h2) h3) h4) h5) h6
  have hstep : SrvStep cexS6 cexS7 := SrvStep.runFinishErr cexS6 0 demoRunFailure "T7"
  have hmono := h cexS6 cexS7 hreach hstep
  have h6some : (lookupTask cexS6.tasks "t1").map (fun rec => (rec.status, rec.inc)) =
      some ("SUCCESS", 1) := by
    with_unfolding_all decide
  have h7some : (lookupTask cexS7.tasks "t1").map (fun rec => (rec.status, rec.inc)) =
      some ("FAILED", 1) := by
    with_unfolding_all decide
  cases hh6 : lookupTask cexS6.tasks "t1" with
  | none =>
    rw [hh6] at h6some
    cases h6some
  | some rec =>
    cases hh7 : lookupTask cexS7.tasks "t1" with
    | none =>
      rw [hh7] at h7some
      cases h7some
    | some rec' =>
      rw [hh6] at h6some
      rw [hh7] at h7some
      simp only [Option.map_some', Option.some.injEq, Prod.mk.injEq] at h6some h7some
      have hall := hmono "t1" rec rec' hh6 hh7 (by rw [h6some.2, h7some.2])
      rw [h6some.1, h7some.1] at hall
      exact absurd hall (by unfold allowedStatusStep; with_unfolding_all decide)

/-- **C3**: submitting a second contract whose taskId is currently tracked
fails with a 409 TASK_EXISTS conflict before any mutation: the server state
— the first task's record, the task map, the run list, and the broadcast
log — is returned unchanged, so no field of the existing task changes and
no subscriber is notified. -/
theorem c3_duplicate_conflict (s : SrvState) (body : JSValue) (now : String)
    (c : GenerationContract) (rec : TaskRec)
    (hvc : validateGenerationContract body = .ok c)
    (htracked : lookupTask s.tasks c.taskId = some rec) :
    postTask s body now =
      (s, PostOutcome.httpError 409 "TASK_EXISTS" ("taskId " ++ c.taskId ++ " already exists")) := by
  unfold postTask
  rw [hvc]
  dsimp only
  rw [if_pos (by rw [htracked]; rfl)]

/-- Witness for C3: re-posting the demo body while task t1 is tracked. -/
theorem c3_duplicate_conflict_witness :
    postTask cexS1 demoBody "T2" =
      (cexS1, PostOutcome.httpError 409 "TASK_EXISTS"
        ("taskId " ++ demoContract.taskId ++ " already exists")) :=
  c3_duplicate_conflict cexS1 demoBody "T2" demoContract (createTaskRecord demoContract "T1" 0)
    (by with_unfolding_all decide) (by with_unfolding_all decide)
